import Mathlib

/-!
Verification development for `ls-audit.py` (repository `zalan-k/ls-rec`).

The Python source is shallowly embedded: Python dicts holding stream
records become a `Rec` structure, the two-partition cache becomes
`Cache`, the persisted cache file becomes `Disk := Option Cache`, and
every stateful function is embedded as a pure function that threads the
cache/disk state explicitly.  External collaborators (yt-dlp, the Twitch
API, the single-item metadata fetch) are modelled as explicit oracle
inputs, matching the interface boundary of the program: an oracle value
of `none` models a failed call.

Python-specific conventions modelled throughout:
  - truthiness tests (`if x:`) on optional strings/ints are embedded by
    the `pyStrTruthy` / `pyIntTruthy` / `pyNatTruthy` helpers;
  - `dict` insertion order (insert keeps position, new keys append) is
    embedded by `insertByKey` / `setdefaultByKey` over lists of records
    keyed by their `id` field;
  - `sorted(..., key=..., reverse=True)` (a stable descending sort) is
    embedded by `pySortDesc`;
  - `datetime` values are embedded as epoch seconds (`Int`); ISO-8601
    parsing (`datetime.fromisoformat`, with the program's `Z` → `+00:00`
    substitution and tz-stripping) is embedded by `isoToEpoch`, which
    covers the timestamp shapes the program produces and reads.
-/

-- ── Python truthiness helpers ────────────────────────────────────────────────

/-- Truthiness of an optional Python string: `None` and `""` are falsy. -/
def pyStrTruthy : Option String → Bool
  | none => false
  | some s => s ≠ ""

/-- Truthiness of an optional Python int: `None` and `0` are falsy. -/
def pyIntTruthy : Option Int → Bool
  | none => false
  | some n => n ≠ 0

/-- Truthiness of an optional Python natural: `None` and `0` are falsy. -/
def pyNatTruthy : Option Nat → Bool
  | none => false
  | some n => n ≠ 0

/-- Characters treated as whitespace by Python's `str.strip()` / regex `\s`
(ASCII subset). -/
def isPySpace (c : Char) : Bool :=
  c = ' ' ∨ c = '\t' ∨ c = '\n' ∨ c = '\r' ∨ c = '\x0b' ∨ c = '\x0c'

/-- Model of Python `str.strip()` on a character list. -/
def pyStripChars (l : List Char) : List Char :=
  ((l.dropWhile isPySpace).reverse.dropWhile isPySpace).reverse

/-- Model of Python `str.strip()`. -/
def pyStrip (s : String) : String := ⟨pyStripChars s.data⟩

-- ── Data model: stream records and the two-partition cache ───────────────────

/-- One cache entry (`ls-audit.py` lines 33-38): a flat dict with keys
`id, platform, title, start_time (ISO string), duration (seconds), channel,
injected`; YouTube entries also carry `upload_date` (YYYYMMDD).  Fields that
a given dict may lack (`duration`, `channel`, `upload_date`) are modelled
with `Option`/default values matching `dict.get` behaviour. -/
structure Rec where
  id : String
  platform : String
  title : String
  start_time : String
  duration : Option Nat := none
  channel : String := ""
  injected : Bool := false
  upload_date : String := ""
  deriving DecidableEq, Repr

/-- The in-memory cache: flat lists keyed by platform
(`{"youtube": [...], "twitch": [...]}`). -/
structure Cache where
  youtube : List Rec
  twitch : List Rec
  deriving DecidableEq, Repr

/-- The persisted cache file `.stream_cache.json`: `none` models an absent
file. -/
abbrev Disk := Option Cache

/-- Model of `cache.get(platform, [])`. -/
def cacheGet (c : Cache) (platform : String) : List Rec :=
  if platform = "youtube" then c.youtube
  else if platform = "twitch" then c.twitch
  else []

/-- Model of `cache[platform] = l` for the two platform keys the program
uses. -/
def cacheSet (c : Cache) (platform : String) (l : List Rec) : Cache :=
  if platform = "youtube" then { c with youtube := l }
  else if platform = "twitch" then { c with twitch := l }
  else c

/-- Model of `save_cache` (lines 62-64): writes the in-memory cache to the
cache file. -/
def save_cache (cache : Cache) (_disk : Disk) : Disk := some cache

/-- Ambient configuration (`config.json`): only the fields the embedded
functions read. -/
structure Config where
  youtube_handle : String
  twitch_user : String
  obsidian_vault : String
  shellcmd_id : String
  deriving DecidableEq, Repr

-- ── Python dict / sorted modelling ───────────────────────────────────────────

/-- Model of `d[rec.id] = rec` on an id-keyed dict held as a list: replace
the value at the first position holding this id, else append (Python dicts
keep first-insertion position, last value). -/
def insertByKey (v : Rec) : List Rec → List Rec
  | [] => [v]
  | x :: xs => if x.id = v.id then v :: xs else x :: insertByKey v xs

/-- Model of `d.setdefault(rec.id, rec)`: keep the existing value if the id
is present, else append. -/
def setdefaultByKey (v : Rec) (l : List Rec) : List Rec :=
  if l.any (fun x => x.id = v.id) then l else l ++ [v]

/-- Model of the dict comprehension `{s["id"]: s for s in streams}`: first
position, last value per id. -/
def pyDedupById (l : List Rec) : List Rec :=
  l.foldl (fun d s => insertByKey s d) []

/-- Stable descending insertion used by `pySortDesc`: an element moves
ahead only of strictly smaller keys, so equal keys keep their original
order (Python's `sorted(..., reverse=True)` is stable). -/
def insortDesc (key : Rec → String) (x : Rec) : List Rec → List Rec
  | [] => [x]
  | y :: ys => if key y < key x then x :: y :: ys else y :: insortDesc key x ys

/-- Model of `sorted(l, key=..., reverse=True)` (stable descending sort by a
string key). -/
def pySortDesc (key : Rec → String) (l : List Rec) : List Rec :=
  l.foldl (fun acc x => insortDesc key x acc) []

/-- Sort key `lambda s: s.get("start_time", "")` used by every cache sort. -/
def startKey (r : Rec) : String := r.start_time

-- ── Date / time arithmetic ───────────────────────────────────────────────────

/-- Leap-year rule used by the Gregorian calendar. -/
def isLeapYear (y : Int) : Bool := y % 4 = 0 ∧ (y % 100 ≠ 0 ∨ y % 400 = 0)

/-- Days in a month of a given year. -/
def daysInMonth (y m : Int) : Int :=
  if m = 2 then (if isLeapYear y then 29 else 28)
  else if m = 4 ∨ m = 6 ∨ m = 9 ∨ m = 11 then 30
  else 31

/-- Days since the Unix epoch for a civil date (standard civil-calendar
conversion; division truncates toward zero exactly as in the reference
formula). -/
def daysFromCivil (y m d : Int) : Int :=
  let y' := if m ≤ 2 then y - 1 else y
  let era := (if 0 ≤ y' then y' else y' - 399) / 400
  let yoe := y' - era * 400
  let doy := (153 * (if 2 < m then m - 3 else m + 9) + 2) / 5 + d - 1
  let doe := yoe * 365 + yoe / 4 - yoe / 100 + doy
  era * 146097 + doe - 719468

/-- Epoch seconds of a (naive) civil datetime; embeds `datetime.datetime`
values as integers. -/
def epochOfDateTime (y m d hh mi ss : Int) : Int :=
  daysFromCivil y m d * 86400 + hh * 3600 + mi * 60 + ss

/-- Range validity of a civil date, as enforced by `datetime`'s
constructor. -/
def validDate (y m d : Int) : Bool :=
  1 ≤ m ∧ m ≤ 12 ∧ 1 ≤ d ∧ d ≤ daysInMonth y m

-- ── Digit parsing helpers ────────────────────────────────────────────────────

/-- Decidable ASCII-digit test (regex `\d`, restricted to ASCII as produced
by the program's data). -/
def isDig (c : Char) : Bool := '0' ≤ c ∧ c ≤ '9'

/-- Numeric value of an ASCII digit. -/
def digitVal (c : Char) : Nat := c.toNat - 48

/-- Parse exactly `n` ASCII digits from the front of a character list,
returning the value and the remainder. -/
def grabDigits : Nat → List Char → Nat → Option (Nat × List Char)
  | 0, l, acc => some (acc, l)
  | Nat.succ k, c :: rest, acc =>
      if isDig c then grabDigits k rest (acc * 10 + digitVal c) else none
  | Nat.succ _, [], _ => none

/-- Consume one expected character. -/
def expectChar (c : Char) : List Char → Option (List Char)
  | x :: rest => if x = c then some rest else none
  | [] => none

-- ── ISO timestamp parsing (`datetime.fromisoformat`) ─────────────────────────

/-- Model of the time-of-day tail `HH:MM[:SS]` of an ISO timestamp, with a
loosely validated suffix (fractional seconds or a timezone offset, which
the program discards via `.replace(tzinfo=None)`; a literal `Z` is first
rewritten to `+00:00` by the caller). -/
def parseIsoTime (l : List Char) : Option (Int × Int × Int) := do
  let (hh, l) ← grabDigits 2 l 0
  let l ← expectChar ':' l
  let (mi, l) ← grabDigits 2 l 0
  let (ss, l) ←
    match l with
    | ':' :: rest => do
        let (ss, l') ← grabDigits 2 rest 0
        pure (ss, l')
    | _ => pure (0, l)
  match l with
  | [] => pure ()
  | c :: _ => if c = '.' ∨ c = '+' ∨ c = '-' ∨ c = 'Z' then pure () else none
  if hh ≤ 23 ∧ mi ≤ 59 ∧ ss ≤ 59 then
    pure ((hh : Int), (mi : Int), (ss : Int))
  else none

/-- Model of
`datetime.fromisoformat(st.replace("Z", "+00:00")).replace(tzinfo=None)`
(line 587), embedded as epoch seconds of the naive wall-clock fields.
Handles `YYYY-MM-DD` and `YYYY-MM-DD[T ]HH:MM[:SS]` with an optional
fraction/offset suffix — the shapes the program writes and reads; any
other string yields `none` (the `ValueError` branch). -/
def isoToEpoch (st : String) : Option Int := do
  let l := st.data
  let (y, l) ← grabDigits 4 l 0
  let l ← expectChar '-' l
  let (m, l) ← grabDigits 2 l 0
  let l ← expectChar '-' l
  let (d, l) ← grabDigits 2 l 0
  if ¬ validDate (y : Int) (m : Int) (d : Int) then none
  else
    match l with
    | [] => pure (epochOfDateTime (y : Int) (m : Int) (d : Int) 0 0 0)
    | c :: rest =>
        if c = 'T' ∨ c = ' ' then do
          let (hh, mi, ss) ← parseIsoTime rest
          pure (epochOfDateTime (y : Int) (m : Int) (d : Int) hh mi ss)
        else none

-- ── `_find_in_cache` (lines 574-602) ─────────────────────────────────────────

/-- Loop body of `_find_in_cache`: fold over the platform's records keeping
the best (record, absolute-skew-in-seconds) pair; records with an empty or
unparsable `start_time` are skipped, a record is taken only when its skew
is within one hour and strictly below the current best. -/
def findBest (targetDate : Int) : List Rec → Option (Rec × Nat) → Option (Rec × Nat)
  | [], best => best
  | s :: rest, best =>
      match isoToEpoch s.start_time with
      | none => findBest targetDate rest best
      | some t =>
          let delta := (t - targetDate).natAbs
          if delta ≤ 3600 ∧ (∀ p ∈ best, delta < p.2) then
            findBest targetDate rest (some (s, delta))
          else
            findBest targetDate rest best

/-- Model of `_find_in_cache(cache, platform, target_date)`: search the
platform's records for a stream within one hour of `target_date`; the
returned pair carries the matched record and the optional `_fuzzy`
annotation string attached when the skew exceeds five minutes. -/
def find_in_cache (cache : Cache) (platform : String) (targetDate : Int) :
    Option (Rec × Option String) :=
  (findBest targetDate (cacheGet cache platform) none).map (fun p =>
    if 300 < p.2 then
      (p.1, some ("~" ++ toString (p.2 / 60) ++ "min off"))
    else
      (p.1, none))

-- ── C6 lemmas ────────────────────────────────────────────────────────────────

/-- Accumulator invariant of `findBest`: any returned pair records a
parsable timestamp together with its true absolute skew, and that skew is
within the one-hour window. -/
theorem findBest_inv (target : Int) :
    ∀ (l : List Rec) (b : Option (Rec × Nat)) (p : Rec × Nat),
      (∀ q ∈ b, (∃ t, isoToEpoch q.1.start_time = some t ∧ q.2 = (t - target).natAbs) ∧ q.2 ≤ 3600) →
      findBest target l b = some p →
      (∃ t, isoToEpoch p.1.start_time = some t ∧ p.2 = (t - target).natAbs) ∧ p.2 ≤ 3600 := by
  intro l
  induction l with
  | nil =>
      intro b p hb h
      exact hb p h
  | cons s rest ih =>
      intro b p hb h
      unfold findBest at h
      cases hparse : isoToEpoch s.start_time with
      | none =>
          rw [hparse] at h
          exact ih b p hb h
      | some t =>
          rw [hparse] at h
          simp only at h
          by_cases hc : (t - target).natAbs ≤ 3600 ∧ ∀ q ∈ b, (t - target).natAbs < q.2
          · rw [if_pos hc] at h
            refine ih _ p ?_ h
            intro q hq
            rw [Option.mem_some_iff] at hq
            subst hq
            exact ⟨⟨t, hparse, rfl⟩, hc.1⟩
          · rw [if_neg hc] at h
            exact ih b p hb h

/-- Minimality invariant of `findBest`: the returned skew is no larger than
the accumulator's skew nor than the skew of any in-window parsable record
of the scanned list. -/
theorem findBest_min (target : Int) :
    ∀ (l : List Rec) (b : Option (Rec × Nat)) (p : Rec × Nat),
      findBest target l b = some p →
      (∀ q ∈ b, p.2 ≤ q.2) ∧
      (∀ s ∈ l, ∀ ts, isoToEpoch s.start_time = some ts →
        (ts - target).natAbs ≤ 3600 → p.2 ≤ (ts - target).natAbs) := by
  intro l
  induction l with
  | nil =>
      intro b p h
      unfold findBest at h
      constructor
      · intro q hq
        rw [h] at hq
        rw [Option.mem_some_iff] at hq
        subst hq
        exact le_refl _
      · intro s hs
        exact absurd hs (List.not_mem_nil s)
  | cons s rest ih =>
      intro b p h
      unfold findBest at h
      cases hparse : isoToEpoch s.start_time with
      | none =>
          rw [hparse] at h
          obtain ⟨h1, h2⟩ := ih b p h
          refine ⟨h1, ?_⟩
          intro x hx ts hts hw
          rcases List.mem_cons.mp hx with hx | hx
          · subst hx
            rw [hparse] at hts
            exact absurd hts (by simp)
          · exact h2 x hx ts hts hw
      | some t =>
          rw [hparse] at h
          simp only at h
          by_cases hc : (t - target).natAbs ≤ 3600 ∧ ∀ q ∈ b, (t - target).natAbs < q.2
          · rw [if_pos hc] at h
            obtain ⟨h1, h2⟩ := ih _ p h
            have hpd : p.2 ≤ (t - target).natAbs := h1 _ (Option.mem_some_iff.mpr rfl)
            constructor
            · intro q hq
              exact le_of_lt (lt_of_le_of_lt hpd (hc.2 q hq))
            · intro x hx ts hts hw
              rcases List.mem_cons.mp hx with hx | hx
              · subst hx
                rw [hparse] at hts
                rw [Option.some_inj] at hts
                subst hts
                exact hpd
              · exact h2 x hx ts hts hw
          · rw [if_neg hc] at h
            obtain ⟨h1, h2⟩ := ih b p h
            refine ⟨h1, ?_⟩
            intro x hx ts hts hw
            rcases List.mem_cons.mp hx with hx | hx
            · subst hx
              rw [hparse] at hts
              rw [Option.some_inj] at hts
              subst hts
              push_neg at hc
              obtain ⟨q, hq, hq2⟩ := hc hw
              exact le_trans (h1 q hq) hq2
            · exact h2 x hx ts hts hw

/-- C6: `find_near` never returns a record whose absolute time skew from the
target exceeds the one-hour window; among in-window records it returns one
of smallest absolute skew; the returned match carries the fuzzy annotation
exactly when the skew exceeds five minutes (300 seconds), so a two-minute
skew yields an exact, unflagged match. -/
theorem find_in_cache_spec (cache : Cache) (platform : String) (target : Int)
    (r : Rec) (fz : Option String)
    (h : find_in_cache cache platform target = some (r, fz)) :
    ∃ t, isoToEpoch r.start_time = some t ∧
      (t - target).natAbs ≤ 3600 ∧
      (∀ s ∈ cacheGet cache platform, ∀ ts, isoToEpoch s.start_time = some ts →
        (ts - target).natAbs ≤ 3600 → (t - target).natAbs ≤ (ts - target).natAbs) ∧
      (fz.isSome ↔ 300 < (t - target).natAbs) := by
  unfold find_in_cache at h
  cases hfb : findBest target (cacheGet cache platform) none with
  | none => rw [hfb] at h; exact absurd h (by simp)
  | some p =>
      rw [hfb] at h
      rw [Option.map_some'] at h
      obtain ⟨⟨t, ht, hd⟩, hw⟩ :=
        findBest_inv target (cacheGet cache platform) none p (by intro q hq; simp at hq) hfb
      obtain ⟨_, hmin⟩ := findBest_min target (cacheGet cache platform) none p hfb
      have hr : p.1 = r := by
        by_cases hf : 300 < p.2
        · rw [if_pos hf] at h
          exact congrArg Prod.fst (Option.some_inj.mp h)
        · rw [if_neg hf] at h
          exact congrArg Prod.fst (Option.some_inj.mp h)
      refine ⟨t, by rw [← hr]; exact ht, by rw [← hd]; exact hw, ?_, ?_⟩
      · intro s hs ts hts hw'
        rw [← hd]
        exact hmin s hs ts hts hw'
      · by_cases hf : 300 < p.2
        · rw [if_pos hf] at h
          have : fz = some ("~" ++ toString (p.2 / 60) ++ "min off") :=
            (congrArg Prod.snd (Option.some_inj.mp h)).symm
          rw [this, ← hd]
          simp [hf]
        · rw [if_neg hf] at h
          have : fz = none := (congrArg Prod.snd (Option.some_inj.mp h)).symm
          rw [this, ← hd]
          simp [hf]

/-- Witness for C6: the spec's Scenario A — a registry record at
`2026-02-08T04:17:00` matched against a document entry dated
`2026-02-08 04:15` is returned with a two-minute skew and no fuzzy flag. -/
theorem find_in_cache_spec_witness :
    ∃ t, isoToEpoch (Rec.mk "vidA0000000" "youtube" "T" "2026-02-08T04:17:00" none "" false "").start_time = some t ∧
      (t - epochOfDateTime 2026 2 8 4 15 0).natAbs ≤ 3600 ∧
      (∀ s ∈ cacheGet (Cache.mk [Rec.mk "vidA0000000" "youtube" "T" "2026-02-08T04:17:00" none "" false ""] []) "youtube",
        ∀ ts, isoToEpoch s.start_time = some ts →
        (ts - epochOfDateTime 2026 2 8 4 15 0).natAbs ≤ 3600 →
        (t - epochOfDateTime 2026 2 8 4 15 0).natAbs ≤ (ts - epochOfDateTime 2026 2 8 4 15 0).natAbs) ∧
      ((none : Option String).isSome ↔ 300 < (t - epochOfDateTime 2026 2 8 4 15 0).natAbs) :=
  find_in_cache_spec
    (Cache.mk [Rec.mk "vidA0000000" "youtube" "T" "2026-02-08T04:17:00" none "" false ""] [])
    "youtube" (epochOfDateTime 2026 2 8 4 15 0)
    (Rec.mk "vidA0000000" "youtube" "T" "2026-02-08T04:17:00" none "" false "") none
    (by decide)

-- ── Epoch → ISO rendering (for `datetime.isoformat`) ─────────────────────────

/-- Inverse civil-calendar conversion: days since the epoch to (y, m, d). -/
def civilFromDays (z0 : Int) : Int × Int × Int :=
  let z := z0 + 719468
  let era := (if 0 ≤ z then z else z - 146096) / 146097
  let doe := z - era * 146097
  let yoe := (doe - doe / 1460 + doe / 36524 - doe / 146096) / 365
  let y := yoe + era * 400
  let doy := doe - (365 * yoe + yoe / 4 - yoe / 100)
  let mp := (5 * doy + 2) / 153
  let d := doy - (153 * mp + 2) / 5 + 1
  let m := if mp < 10 then mp + 3 else mp - 9
  (if m ≤ 2 then y + 1 else y, m, d)

/-- Zero-padded two-digit decimal rendering. -/
def pad2 (n : Int) : String :=
  if n < 10 then "0" ++ toString n else toString n

/-- Zero-padded four-digit decimal rendering. -/
def pad4 (n : Int) : String :=
  if n < 10 then "000" ++ toString n
  else if n < 100 then "00" ++ toString n
  else if n < 1000 then "0" ++ toString n
  else toString n

/-- Model of `datetime.datetime.fromtimestamp(ts).isoformat()` for an
integral timestamp.  Modelling note: `fromtimestamp` renders the host's
local wall-clock time; the embedding renders UTC, fixing one concrete
host timezone, which no claim depends on. -/
def epochToIso (ts : Int) : String :=
  let days := ts.fdiv 86400
  let sod := (ts.fmod 86400).toNat
  let (y, m, d) := civilFromDays days
  pad4 y ++ "-" ++ pad2 m ++ "-" ++ pad2 d ++ "T" ++
    pad2 (sod / 3600) ++ ":" ++ pad2 ((sod % 3600) / 60) ++ ":" ++ pad2 (sod % 60)

/-- Model of
`datetime.datetime.strptime(upload_date, "%Y%m%d").isoformat()`. -/
def ymdToIso (y m d : Nat) : String :=
  pad4 (y : Int) ++ "-" ++ pad2 (m : Int) ++ "-" ++ pad2 (d : Int) ++ "T00:00:00"

-- ── YouTube refresh (`refresh_youtube`, lines 82-158) ────────────────────────

/-- One parsed line of yt-dlp `--dump-json` output.  Modelling notes: a
blank line or a line that fails JSON decoding is modelled as `none` in the
fetch output list (both are skipped by the source loop); `upload_date` is
modelled as an optional valid (y, m, d) triple because the listing
collaborator (spec §6) delivers format-guaranteed `YYYYMMDD` strings —
`none` models a missing or empty field. -/
structure YtItem where
  id : String := ""
  release_timestamp : Option Int := none
  upload_date : Option (Nat × Nat × Nat) := none
  title : Option String := none
  duration : Option Nat := none
  channel : Option String := none
  deriving DecidableEq, Repr

/-- Start-time selection of the parse loop (lines 118-126): a truthy
`release_timestamp` wins, else a truthy `upload_date`, else the item is
skipped. -/
def ytStartTime (d : YtItem) : Option String :=
  match d.release_timestamp with
  | some ts =>
      if ts ≠ 0 then some (epochToIso ts)
      else (d.upload_date.map fun (y, m, dd) => ymdToIso y m dd)
  | none => d.upload_date.map fun (y, m, dd) => ymdToIso y m dd

/-- The stream record built from one parsed yt-dlp line (lines 128-137). -/
def ytRecOf (cfg : Config) (d : YtItem) (st : String) : Rec :=
  { id := d.id
    platform := "youtube"
    title := d.title.getD "Unknown"
    start_time := st
    upload_date :=
      match d.upload_date with
      | some (y, m, dd) => pad4 (y : Int) ++ pad2 (m : Int) ++ pad2 (dd : Int)
      | none => ""
    duration := d.duration
    channel := if pyStrTruthy d.channel then d.channel.getD "" else cfg.youtube_handle
    injected := false }

/-- The whole parse loop (lines 108-139): decode failures, items without
an id and items without any usable timestamp are skipped. -/
def ytParseAll (cfg : Config) (lines : List (Option YtItem)) : List Rec :=
  lines.filterMap fun l =>
    match l with
    | none => none
    | some d => if d.id = "" then none else (ytStartTime d).map (ytRecOf cfg d)

/-- The merge step shared by both refreshes (lines 145-155 and 245-254):
existing injected records are inserted into the id-keyed dict, existing
non-injected records only via `setdefault`, then every freshly fetched
record is inserted unconditionally, and the values are re-sorted
descending by `start_time`. -/
def mergeRefresh (old new : List Rec) : List Rec :=
  let existing := old.foldl
    (fun d s => if s.injected then insertByKey s d else setdefaultByKey s d) []
  let existing := new.foldl (fun d s => insertByKey s d) existing
  pySortDesc startKey existing

/-- Model of `refresh_youtube(cache, full)`.  The yt-dlp invocation is an
oracle input: `none` models every no-output failure branch (non-zero exit
with empty stdout, timeout, missing binary); `some lines` models the
dumped JSON lines.  Returns (return value, in-memory cache, cache file). -/
def refresh_youtube (cfg : Config) (cache : Cache) (disk : Disk)
    (fetch : Option (List (Option YtItem))) (_full : Bool) : Bool × Cache × Disk :=
  match fetch with
  | none => (false, cache, disk)
  | some lines =>
      let new := ytParseAll cfg lines
      if new = [] then (false, cache, disk)
      else
        let cache' := cacheSet cache "youtube" (mergeRefresh (cacheGet cache "youtube") new)
        (true, cache', save_cache cache' disk)

-- ── Twitch refresh (`refresh_twitch`, lines 189-257) ─────────────────────────

/-- One video object of a Twitch `helix/videos` response (required keys
are accessed with `[]` in the source). -/
structure TwItem where
  id : String
  title : String
  created_at : String
  duration : Option String := none
  deriving DecidableEq, Repr

/-- One page of the paginated Twitch response; `none` in the page list
models a failed request (the `urlopen` exception branch, which breaks the
loop). -/
structure TwPage where
  videos : List TwItem
  cursor : Option String := none
  deriving DecidableEq, Repr

/-- Maximal-run digit scanner. -/
def takeDigits : List Char → Nat → Nat × List Char
  | c :: rest, acc =>
      if isDig c then takeDigits rest (acc * 10 + digitVal c) else (acc, c :: rest)
  | [], acc => (acc, [])

/-- Scan loop of `_parse_twitch_duration` (lines 178-186): sum over every
`(\d+)([hms])` occurrence. -/
def twDurLoop : Nat → List Char → Nat → Nat
  | 0, _, acc => acc
  | _ + 1, [], acc => acc
  | fuel + 1, c :: rest, acc =>
      if isDig c then
        match takeDigits (c :: rest) 0 with
        | (v, 'h' :: r2) => twDurLoop fuel r2 (acc + v * 3600)
        | (v, 'm' :: r2) => twDurLoop fuel r2 (acc + v * 60)
        | (v, 's' :: r2) => twDurLoop fuel r2 (acc + v)
        | (_, rest') => twDurLoop fuel rest' acc
      else twDurLoop fuel rest acc

/-- Model of `_parse_twitch_duration(dur_str)`: parse `'3h24m18s'` into
seconds; falsy input and a zero total give `None`. -/
def parse_twitch_duration : Option String → Option Nat
  | none => none
  | some s =>
      if s = "" then none
      else
        let total := twDurLoop s.data.length s.data 0
        if total = 0 then none else some total

/-- The paginated fetch loop of `refresh_twitch` (lines 202-239): stop on
a failed request, an empty page, a missing cursor, or once `limit` items
were fetched.  An exhausted page list is treated like a failed request
(a real API always answers). -/
def twCollect : List (Option TwPage) → Nat → Nat → List TwItem → List TwItem
  | [], _, _, acc => acc
  | resp :: rest, fetched, limit, acc =>
      if fetched < limit then
        match resp with
        | none => acc
        | some page =>
            if page.videos = [] then acc
            else
              let acc' := acc ++ page.videos
              if pyStrTruthy page.cursor then
                twCollect rest (fetched + page.videos.length) limit acc'
              else acc'
      else acc

/-- The VOD record built from one Twitch video object (lines 226-234). -/
def twRecOf (cfg : Config) (v : TwItem) : Rec :=
  { id := v.id
    platform := "twitch"
    title := v.title
    start_time := v.created_at
    duration := parse_twitch_duration v.duration
    channel := cfg.twitch_user
    injected := false }

/-- Model of `refresh_twitch(cache, full)`.  The OAuth token request and
the paginated video listing are oracle inputs: `token = none` models a
failed `_twitch_get_token`. -/
def refresh_twitch (cfg : Config) (cache : Cache) (disk : Disk)
    (token : Option String) (pages : List (Option TwPage)) (full : Bool) :
    Bool × Cache × Disk :=
  match token with
  | none => (false, cache, disk)
  | some _ =>
      let limit := if full then 200 else 100
      let vods := (twCollect pages 0 limit []).map (twRecOf cfg)
      if vods = [] then (false, cache, disk)
      else
        let cache' := cacheSet cache "twitch" (mergeRefresh (cacheGet cache "twitch") vods)
        (true, cache', save_cache cache' disk)

-- ── C1: refresh vs. manually-injected records ────────────────────────────────

/-- C1 (divergence witness): refreshing overwrites a manually-injected
record when the fetch returns a record with the same id.  The cache holds
one injected YouTube record with id `X0000000001`; the fetch returns a
non-injected record with the same id; after the refresh both the in-memory
cache and the saved file hold only the fetched record (`injected = false`)
— the manual record is gone, contrary to the merge's own intent comments
(`# injected entries kept as-is`, lines 145-149) and to the claim.  The
cause is the unconditional `existing[s["id"]] = s` loop over the fetched
records (lines 152-153). -/
theorem refresh_overwrites_injected_record :
    refresh_youtube (Config.mk "@h" "tw" "v" "c")
      (Cache.mk [Rec.mk "X0000000001" "youtube" "Manual title" "2026-01-01T00:00:00" none "" true ""] [])
      none
      (some [some (YtItem.mk "X0000000001" none (some (2026, 1, 1)) (some "Fetched title") none none)])
      true =
    (true,
     Cache.mk [Rec.mk "X0000000001" "youtube" "Fetched title" "2026-01-01T00:00:00" none "@h" false "20260101"] [],
     some (Cache.mk [Rec.mk "X0000000001" "youtube" "Fetched title" "2026-01-01T00:00:00" none "@h" false "20260101"] [])) := by
  decide

-- ── C9: refresh failure leaves all state untouched ───────────────────────────

/-- C9: for both platforms, when the external listing call fails (yt-dlp
produced no output / the Twitch token request failed) or yields zero
parsable records, the refresh returns `false` and leaves both the
in-memory cache and the persisted cache file exactly as they were — no
merge and no save happen. -/
theorem refresh_failure_preserves_state (cfg : Config) (cache : Cache)
    (disk : Disk) (full : Bool) :
    (∀ fetch, (fetch = none ∨ ∃ lines, fetch = some lines ∧ ytParseAll cfg lines = []) →
      refresh_youtube cfg cache disk fetch full = (false, cache, disk)) ∧
    (∀ token pages,
      (token = none ∨
        (twCollect pages 0 (if full then 200 else 100) []).map (twRecOf cfg) = []) →
      refresh_twitch cfg cache disk token pages full = (false, cache, disk)) := by
  constructor
  · intro fetch h
    rcases h with h | ⟨lines, hl, hp⟩
    · subst h; rfl
    · subst hl
      unfold refresh_youtube
      dsimp only
      rw [hp]
      rfl
  · intro token pages h
    rcases h with h | h
    · subst h; rfl
    · cases token with
      | none => rfl
      | some t =>
          unfold refresh_twitch
          dsimp only
          rw [h]
          rfl

/-- Witness for C9: a failed yt-dlp call and a failed Twitch token request
against a non-empty cache leave the cache and the cache file untouched and
return `false`. -/
theorem refresh_failure_preserves_state_witness :
    refresh_youtube (Config.mk "@h" "tw" "v" "c")
      (Cache.mk [Rec.mk "a00" "youtube" "t" "2026-01-01T00:00:00" none "" false ""] [])
      (some (Cache.mk [] [])) none true =
      (false,
       Cache.mk [Rec.mk "a00" "youtube" "t" "2026-01-01T00:00:00" none "" false ""] [],
       some (Cache.mk [] [])) ∧
    refresh_twitch (Config.mk "@h" "tw" "v" "c")
      (Cache.mk [Rec.mk "a00" "youtube" "t" "2026-01-01T00:00:00" none "" false ""] [])
      (some (Cache.mk [] [])) none [] true =
      (false,
       Cache.mk [Rec.mk "a00" "youtube" "t" "2026-01-01T00:00:00" none "" false ""] [],
       some (Cache.mk [] [])) :=
  ⟨(refresh_failure_preserves_state (Config.mk "@h" "tw" "v" "c")
      (Cache.mk [Rec.mk "a00" "youtube" "t" "2026-01-01T00:00:00" none "" false ""] [])
      (some (Cache.mk [] [])) true).1 none (Or.inl rfl),
   (refresh_failure_preserves_state (Config.mk "@h" "tw" "v" "c")
      (Cache.mk [Rec.mk "a00" "youtube" "t" "2026-01-01T00:00:00" none "" false ""] [])
      (some (Cache.mk [] [])) true).2 none [] (Or.inl rfl)⟩

-- ── `load_cache` (lines 40-59) over raw JSON values ──────────────────────────

/-- Untyped JSON values, as returned by `json.load`. -/
inductive JVal where
  | null
  | jbool (b : Bool)
  | jnum (n : Int)
  | jstr (s : String)
  | jarr (l : List JVal)
  | jobj (l : List (String × JVal))

/-- The Python exceptions that the embedded `load_cache` can surface
(`AttributeError` from calling `.get` on a non-dict value). -/
inductive PyErr where
  | attributeError
  deriving DecidableEq, Repr

/-- On-disk states of the cache file: absent, unreadable (`IOError`),
syntactically invalid (`json.JSONDecodeError`), or parsed JSON. -/
inductive CacheFileState where
  | absent
  | unreadable
  | badSyntax
  | parsed (raw : JVal)

/-- Dict lookup on a parsed JSON object (keys are unique after JSON
parsing). -/
def jObjGet (l : List (String × JVal)) (k : String) : Option JVal :=
  (l.find? (fun p => p.1 = k)).map (·.2)

/-- Model of `raw.get(platform, [])` (line 49) on an arbitrary JSON value:
only a dict has `.get`; any other value raises `AttributeError`, which the
surrounding `except (json.JSONDecodeError, IOError)` does not catch. -/
def jGetAttr (raw : JVal) (k : String) : Except PyErr JVal :=
  match raw with
  | .jobj l => .ok ((jObjGet l k).getD (.jarr []))
  | _ => .error .attributeError

/-- The per-platform migration step (lines 49-55): a dict takes its
`streams` (else `vods`, else `[]`) value — whatever shape that value has;
a list is kept; anything else becomes `[]`. -/
def migratePlatform (raw : JVal) (platform : String) : Except PyErr JVal := do
  let data ← jGetAttr raw platform
  match data with
  | .jobj l => pure ((jObjGet l "streams").getD ((jObjGet l "vods").getD (.jarr [])))
  | .jarr a => pure (.jarr a)
  | _ => pure (.jarr [])

/-- Model of `load_cache()` (lines 40-59): the result pairs the values
bound to the `youtube` and `twitch` keys of the returned dict; an `error`
value models an uncaught exception escaping `load_cache`. -/
def load_cache (st : CacheFileState) : Except PyErr (JVal × JVal) :=
  match st with
  | .absent => .ok (.jarr [], .jarr [])
  | .unreadable => .ok (.jarr [], .jarr [])
  | .badSyntax => .ok (.jarr [], .jarr [])
  | .parsed raw => do
      let y ← migratePlatform raw "youtube"
      let t ← migratePlatform raw "twitch"
      pure (y, t)

/-- C8 (divergence witness): `load()` CAN raise.  A cache file whose
content is the valid JSON text `[]` (a top-level array — corrupted content
for this program) makes `raw.get("youtube", [])` raise `AttributeError`,
which the `except (json.JSONDecodeError, IOError)` clause at line 57 does
not catch, so `load_cache` propagates the exception instead of returning
the empty registry; an absent file, by contrast, does return the empty
registry. -/
theorem load_cache_raises_on_array :
    load_cache (.parsed (.jarr [])) = .error .attributeError ∧
    load_cache .absent = .ok (.jarr [], .jarr []) := by
  exact ⟨rfl, rfl⟩

-- ── Filename id extraction and `_classify_video_id` (lines 564-572) ──────────

/-- Model of `str.lstrip('v')`: drop leading `v` characters. -/
def lstripV (s : String) : String := ⟨s.data.dropWhile (· = 'v')⟩

/-- Model of Python `str.isdigit()` for the ASCII tokens the program
handles: non-empty and all ASCII digits. -/
def pyIsDigit (s : String) : Bool := s ≠ "" ∧ s.data.all isDig

/-- Model of `_classify_video_id(vid)` (lines 570-572): guess the platform
from a video id — `"twitch" if vid.lstrip('v').isdigit() else "youtube"`. -/
def classify_video_id (vid : String) : String :=
  if pyIsDigit (lstripV vid) then "twitch" else "youtube"

/-- Leftmost-position regex search: try the position matcher on every
suffix, leftmost first. -/
def searchOpt {α : Type} (f : List Char → Option α) : List Char → Option α
  | [] => f []
  | c :: t =>
      match f (c :: t) with
      | some r => some r
      | none => searchOpt f t

/-- Position matcher for the pattern `\[([^\]]+)\]\s*@\s*\d{4}-\d{2}-\d{2}`
of `_extract_video_id_from_filename`; each sub-pattern here is
deterministic (a greedy run followed by a character outside the run's
class), so no backtracking is needed. -/
def matchBracketIdAt (l : List Char) : Option String :=
  match l with
  | '[' :: rest =>
      let inner := rest.takeWhile (· ≠ ']')
      if inner = [] then none
      else
        match rest.dropWhile (· ≠ ']') with
        | ']' :: r2 =>
            match (r2.dropWhile isPySpace) with
            | '@' :: r4 => do
                let r5 := r4.dropWhile isPySpace
                let (_, r6) ← grabDigits 4 r5 0
                let r7 ← expectChar '-' r6
                let (_, r8) ← grabDigits 2 r7 0
                let r9 ← expectChar '-' r8
                let _ ← grabDigits 2 r9 0
                pure (String.mk inner)
            | _ => none
        | _ => none
  | _ => none

/-- Model of `_extract_video_id_from_filename(filename)` (lines 564-567):
extract the `[video_id]` token from a storage filename such as
`516_title [ID] @ 2026-02-08_04-15.ext`. -/
def extract_video_id_from_filename (filename : String) : Option String :=
  searchOpt matchBracketIdAt filename.data

-- ── `scan_nas` (lines 658-684) ───────────────────────────────────────────────

/-- Word character of regex `\w` (ASCII model, as in the program's
filenames). -/
def isWordChar (c : Char) : Bool := c.isAlpha ∨ isDig c ∨ c = '_'

/-- End-anchored position matcher for the download-fragment pattern
`\.f\d+\.\w+$` (line 669). -/
def matchFragAt : List Char → Bool
  | '.' :: 'f' :: rest =>
      let ds := rest.takeWhile isDig
      if ds = [] then false
      else
        match rest.dropWhile isDig with
        | '.' :: r2 =>
            let ws := r2.takeWhile isWordChar
            ws ≠ [] ∧ r2.dropWhile isWordChar = []
        | _ => false
  | _ => false

/-- Any-position boolean search (`re.search`). -/
def anySuffix (p : List Char → Bool) : List Char → Bool
  | [] => p []
  | c :: t => p (c :: t) || anySuffix p t

/-- Does the filename match the intermediate-download pattern
`\.f\d+\.\w+$`? -/
def isFragmentFile (s : String) : Bool := anySuffix matchFragAt s.data

/-- Model of `os.path.splitext(filename)[1].lower()` on a basename: the
lowercased extension from the last dot, empty when the dots are all
leading. -/
def splitextExtLower (s : String) : String :=
  let l := s.data
  match ((List.range l.length).filter (fun i => l.get? i = some '.')).getLast? with
  | none => ""
  | some p => if (l.take p).all (· = '.') then "" else ⟨(l.drop p).map Char.toLower⟩

/-- The storage finding: at most one file per platform and kind
(`found` dict of `scan_nas`, line 660). -/
structure Nas where
  yt_video : Option String := none
  yt_chat : Option String := none
  tw_video : Option String := none
  tw_chat : Option String := none
  deriving DecidableEq, Repr

/-- Per-file body of the `scan_nas` loop (lines 666-683): skip
intermediate fragments and files without an embedded id, otherwise
classify by id shape and extension and fill the matching slot (a later
file overwrites an earlier one in the same slot). -/
def scanStep (found : Nas) (filename : String) : Nas :=
  if isFragmentFile filename then found
  else
    match extract_video_id_from_filename filename with
    | none => found
    | some vid =>
        let platform := classify_video_id vid
        let ext := splitextExtLower filename
        if ext = ".mp4" then
          if platform = "youtube" then { found with yt_video := some filename }
          else { found with tw_video := some filename }
        else if ext = ".json" then
          if platform = "youtube" then { found with yt_chat := some filename }
          else { found with tw_chat := some filename }
        else found

/-- Model of Python `str.startswith` (kernel-reducible form). -/
def pyStartsWith (s pre : String) : Bool := pre.data.isPrefixOf s.data

/-- Model of `scan_nas(index)`: the storage directory listing (basenames,
in directory order) is an explicit input; only files whose name starts
with `"{index}_"` (the `glob` pattern) are visited. -/
def scan_nas (index : Nat) (listing : List String) : Nas :=
  (listing.filter (fun f => pyStartsWith f (toString index ++ "_"))).foldl scanStep {}

-- ── C7 theorems ──────────────────────────────────────────────────────────────

/-- C7 counterexample: the classifier applies NO length requirement.  The
single-character numeric token `"7"` — which is not "long" under any
reading — is classified platform B (Twitch), where the claim's
"numeric-only and long ⇒ B; otherwise ⇒ A" rule predicts platform A. -/
theorem classify_video_id_counterexample :
    classify_video_id "7" = "twitch" ∧ "7".length = 1 := by
  decide

/-- C7 amended: the scanner classifies a token as platform B (Twitch)
exactly when it is numeric-only after discarding leading `v` characters —
regardless of its length — and platform A (YouTube) otherwise; file kind
comes from the extension (`.mp4` ⇒ video, `.json` ⇒ chat-log).  In
particular a file for index 515 embedding the numeric id
`12345678901234` is classified platform B, kind video, while a
fragment file and a file of another index are ignored. -/
theorem classify_and_scan_spec :
    (∀ vid : String,
      (classify_video_id vid = "twitch" ↔ pyIsDigit (lstripV vid)) ∧
      (classify_video_id vid = "youtube" ↔ ¬ pyIsDigit (lstripV vid))) ∧
    scan_nas 515
      ["515_abc [dQw4w9WgXcQ] @ 2026-02-08_04-15.json",
       "515_title [12345678901234] @ 2026-02-08_04-15.mp4",
       "515_title [12345678901234] @ 2026-02-08_04-15.f616.mp4",
       "516_x [999999999999999] @ 2026-02-08_04-15.mp4"] =
      { yt_video := none,
        yt_chat := some "515_abc [dQw4w9WgXcQ] @ 2026-02-08_04-15.json",
        tw_video := some "515_title [12345678901234] @ 2026-02-08_04-15.mp4",
        tw_chat := none } := by
  refine ⟨?_, by decide⟩
  intro vid
  unfold classify_video_id
  by_cases h : pyIsDigit (lstripV vid) = true
  · rw [if_pos h]
    exact ⟨iff_of_true rfl h, iff_of_false (by decide) (by simp [h])⟩
  · rw [if_neg h]
    exact ⟨iff_of_false (by decide) h, iff_of_true rfl (by simpa using h)⟩

-- ── Obsidian parser (`parse_entry`, lines 409-522) ───────────────────────────

/-- Position matcher for the entry-header pattern `\*\*{index}\*\*\s*:`. -/
def matchHeaderAt (index : Nat) (l : List Char) : Bool :=
  let pat := ("**" ++ toString index ++ "**").data
  if pat.isPrefixOf l then
    match (l.drop pat.length).dropWhile isPySpace with
    | ':' :: _ => true
    | _ => false
  else false

/-- Does a line contain the entry header tag for `index`
(`re.search(rf'\*\*{index}\*\*\s*:', line)`, lines 451 and 536)? -/
def isHeaderLine (index : Nat) (line : String) : Bool :=
  anySuffix (matchHeaderAt index) line.data

/-- Start-anchored matcher for the next-entry-header pattern
`^-\s*\[.\]\s*\*\*\d+\*\*` (lines 491 and 546); every greedy run here is
followed by a character outside its class, so the match is
deterministic. -/
def nextHeaderMatch (l : List Char) : Bool :=
  match l with
  | '-' :: r1 =>
      match r1.dropWhile isPySpace with
      | '[' :: c :: ']' :: r3 =>
          if c = '\n' then false
          else
            match r3.dropWhile isPySpace with
            | '*' :: '*' :: r5 =>
                if r5.takeWhile isDig = [] then false
                else
                  match r5.dropWhile isDig with
                  | '*' :: '*' :: _ => true
                  | _ => false
            | _ => false
      | _ => false
  | _ => false

/-- Entry-boundary test of the scan loops (lines 491 and 546): a stripped
`---` line or a next entry header. -/
def isBoundary (line : String) : Bool :=
  pyStrip line = "---" ∨ nextHeaderMatch line.data

/-- Position matcher for the checkbox pattern `\[([ x])\]` (line 461). -/
def matchCheckboxAt : List Char → Option Char
  | '[' :: c :: ']' :: _ => if c = ' ' ∨ c = 'x' then some c else none
  | _ => none

/-- Position matcher for the header date pattern
`(\d{4}\.\d{2}\.\d{2}\s+\d{2}:\d{2})` (line 466); returns the matched text
along with its numeric fields. -/
def matchDateAt (l : List Char) : Option (List Char × Nat × Nat × Nat × Nat × Nat) := do
  let (y, r1) ← grabDigits 4 l 0
  let r2 ← expectChar '.' r1
  let (mo, r3) ← grabDigits 2 r2 0
  let r4 ← expectChar '.' r3
  let (d, r5) ← grabDigits 2 r4 0
  if r5.takeWhile isPySpace = [] then none
  else do
    let r6 := r5.dropWhile isPySpace
    let (hh, r7) ← grabDigits 2 r6 0
    let r8 ← expectChar ':' r7
    let (mi, r9) ← grabDigits 2 r8 0
    pure (l.take (l.length - r9.length), y, mo, d, hh, mi)

/-- Position matcher for the timezone pattern `(\(GMT[^)]*\))`
(line 475). -/
def matchTzAt : List Char → Option String
  | '(' :: 'G' :: 'M' :: 'T' :: rest =>
      match rest.dropWhile (· ≠ ')') with
      | ')' :: _ => some ("(GMT" ++ String.mk (rest.takeWhile (· ≠ ')')) ++ ")")
      | _ => none
  | _ => none

/-- Position matcher for the header duration pattern
`\[(\d{2}:\d{2}:\d{2})\]` (line 480); returns the inner `HH:MM:SS`
text. -/
def matchDurAt (l : List Char) : Option String := do
  let r0 ← expectChar '[' l
  let (_, r1) ← grabDigits 2 r0 0
  let r2 ← expectChar ':' r1
  let (_, r3) ← grabDigits 2 r2 0
  let r4 ← expectChar ':' r3
  let (_, r5) ← grabDigits 2 r4 0
  let _ ← expectChar ']' r5
  pure (String.mk (r0.take 8))

/-- Test for the no-stream glyphs `[✗✘]` (lines 496 and 507). -/
def hasCross (line : String) : Bool :=
  line.data.any (fun c => c = '✗' ∨ c = '✘')

/-- All link targets `\]\(([^)]+)\)` of a line, in order, non-overlapping
(`re.findall`, lines 499 and 510). -/
def findUrlsLoop : Nat → List Char → List String
  | 0, _ => []
  | _ + 1, [] => []
  | fuel + 1, ']' :: '(' :: rest =>
      let inner := rest.takeWhile (· ≠ ')')
      if inner = [] then findUrlsLoop fuel ('(' :: rest)
      else
        match rest.dropWhile (· ≠ ')') with
        | ')' :: r2 => String.mk inner :: findUrlsLoop fuel r2
        | _ => findUrlsLoop fuel ('(' :: rest)
  | fuel + 1, _ :: rest => findUrlsLoop fuel rest

/-- All link targets of a line. -/
def findUrls (line : String) : List String :=
  findUrlsLoop line.data.length line.data

/-- Characters of a YouTube video id (`[a-zA-Z0-9_-]`). -/
def isIdChar (c : Char) : Bool := c.isAlpha ∨ isDig c ∨ c = '_' ∨ c = '-'

/-- Position matcher for the YouTube URL pattern
`(?:youtube\.com/watch\?v=|youtu\.be/)([a-zA-Z0-9_-]{11})` (line 414). -/
def matchYtUrlAt (l : List Char) : Option String :=
  let tryPat : List Char → Option String := fun pat =>
    if pat.isPrefixOf l then
      let ids := (l.drop pat.length).take 11
      if ids.length = 11 ∧ ids.all isIdChar then some (String.mk ids) else none
    else none
  match tryPat "youtube.com/watch?v=".data with
  | some v => some v
  | none => tryPat "youtu.be/".data

/-- Position matcher for the Twitch URL pattern
`twitch\.tv/[^/]+/videos?/(\d+)` (line 418). -/
def matchTwUrlAt (l : List Char) : Option String :=
  if "twitch.tv/".data.isPrefixOf l then
    let rest := l.drop 10
    if rest.takeWhile (· ≠ '/') = [] then none
    else
      match rest.dropWhile (· ≠ '/') with
      | '/' :: r2 =>
          if "video".data.isPrefixOf r2 then
            let r3 := r2.drop 5
            let r4 := match r3 with | 's' :: rr => rr | _ => r3
            match r4 with
            | '/' :: r5 =>
                let ds := r5.takeWhile isDig
                if ds = [] then none else some (String.mk ds)
            | _ => none
          else none
      | _ => none
  else none

/-- Model of `_extract_video_id_from_url(url)` (lines 409-422): video id
and platform from a YouTube or Twitch URL. -/
def extract_video_id_from_url (url : String) : Option (String × String) :=
  match searchOpt matchYtUrlAt url.data with
  | some v => some (v, "youtube")
  | none =>
      match searchOpt matchTwUrlAt url.data with
      | some v => some (v, "twitch")
      | none => none

/-- The `for url in findall: ...; break` loop body of the platform-line
scan (lines 499-503 and 510-514): the first URL whose extracted id is of
the wanted platform. -/
def firstPlatformId (plat : String) : List String → Option String
  | [] => none
  | u :: rest =>
      match extract_video_id_from_url u with
      | some (v, p) => if p = plat then some v else firstPlatformId plat rest
      | none => firstPlatformId plat rest

/-- The minimal parse result of `parse_entry` (lines 432-439), with
`date_obj` embedded as epoch seconds. -/
structure ParsedEntry where
  found : Bool := false
  checkbox : String := "[ ]"
  date_str : Option String := none
  date_obj : Option Int := none
  tz_str : Option String := none
  duration_str : Option String := none
  yt_id : Option String := none
  tw_id : Option String := none
  no_yt : Bool := false
  no_tw : Bool := false
  notes : List String := []
  deriving DecidableEq, Repr

/-- Header-field extraction of `parse_entry` (lines 458-482): checkbox,
date (with `strptime` range validation for `date_obj`), timezone label and
duration. -/
def parseHeaderFields (header : String) (e0 : ParsedEntry) : ParsedEntry :=
  let e1 :=
    match searchOpt matchCheckboxAt header.data with
    | some c => { e0 with checkbox := String.mk ['[', c, ']'] }
    | none => e0
  let e2 :=
    match searchOpt matchDateAt header.data with
    | some (txt, y, mo, d, hh, mi) =>
        { e1 with
          date_str := some (String.mk txt)
          date_obj :=
            if validDate (y : Int) (mo : Int) (d : Int) ∧ hh ≤ 23 ∧ mi ≤ 59 then
              some (epochOfDateTime (y : Int) (mo : Int) (d : Int) (hh : Int) (mi : Int) 0)
            else none }
    | none => e1
  let e3 :=
    match searchOpt matchTzAt header.data with
    | some tz => { e2 with tz_str := some tz }
    | none => e2
  match searchOpt matchDurAt header.data with
  | some dur => { e3 with duration_str := some dur }
  | none => e3

/-- Is the line a YouTube platform line (`re.match(r'^\t`YT`', line)`)? -/
def isYtTagLine (line : String) : Bool := "\t`YT`".data.isPrefixOf line.data

/-- Is the line a Twitch platform line (`re.match(r'^\t`TW`', line)`)? -/
def isTwTagLine (line : String) : Bool := "\t`TW`".data.isPrefixOf line.data

/-- Effect of one YouTube platform line on the parse state
(lines 495-503). -/
def applyYtLine (e : ParsedEntry) (line : String) : ParsedEntry :=
  if hasCross line then { e with no_yt := true }
  else
    match firstPlatformId "youtube" (findUrls line) with
    | some v => { e with yt_id := some v }
    | none => e

/-- Effect of one Twitch platform line on the parse state
(lines 506-514). -/
def applyTwLine (e : ParsedEntry) (line : String) : ParsedEntry :=
  if hasCross line then { e with no_tw := true }
  else
    match firstPlatformId "twitch" (findUrls line) with
    | some v => { e with tw_id := some v }
    | none => e

/-- The indented-line scan of `parse_entry` (lines 484-520): stop at an
entry boundary, fold platform lines into the state, collect every other
line verbatim as a user note. -/
def scanLines (e : ParsedEntry) : List String → ParsedEntry
  | [] => e
  | line :: rest =>
      if isBoundary line then e
      else if isYtTagLine line then scanLines (applyYtLine e line) rest
      else if isTwTagLine line then scanLines (applyTwLine e line) rest
      else scanLines { e with notes := e.notes ++ [line] } rest

/-- Find the first header line for `index` and return it with the
remaining lines (the `for i, line in enumerate(lines)` search at
lines 449-453). -/
def locateHeader (index : Nat) : List String → Option (String × List String)
  | [] => none
  | l :: rest =>
      if isHeaderLine index l then some (l, rest) else locateHeader index rest

/-- Model of `parse_entry(index)` (lines 425-522) over the document's line
list (as produced by `readlines`, each line keeping its newline). -/
def parse_entry (index : Nat) (docLines : List String) : ParsedEntry :=
  match locateHeader index docLines with
  | none => {}
  | some (header, rest) =>
      scanLines (parseHeaderFields header { found := true }) rest

-- ── `write_entry` (lines 525-555) ────────────────────────────────────────────

/-- Line index of the entry header (`start`, lines 534-538). -/
def locateStart (index : Nat) (docLines : List String) : Option Nat :=
  docLines.findIdx? (isHeaderLine index)

/-- The end-of-block scan (`end`, lines 543-548), expressed on the suffix
after the header. -/
def endScan : List String → Nat → Nat
  | [], e => e
  | l :: rest, e => if isBoundary l then e else endScan rest (e + 1)

/-- First boundary line at or after position `start + 1` (or the document
end). -/
def locateEnd (docLines : List String) (start : Nat) : Nat :=
  endScan (docLines.drop (start + 1)) (start + 1)

/-- Normalisation applied to each replacement line
(`l if l.endswith('\n') else l + '\n'`, line 550). -/
def ensureNL (l : String) : String :=
  if l.data.getLast? = some '\n' then l else l ++ "\n"

/-- Model of `write_entry(index, new_lines)` (lines 525-555): locate the
block, then splice `new_lines` (newline-normalised) over exactly the line
range `[start, end)`; `none` models the entry-not-found failure report. -/
def write_entry (index : Nat) (docLines newLines : List String) : Option (List String) :=
  match locateStart index docLines with
  | none => none
  | some s =>
      some (docLines.take s ++ newLines.map ensureNL ++ docLines.drop (locateEnd docLines s))

/-- Model of `str.rstrip('\n')`: strip all trailing newline characters
(used on notes at line 794). -/
def rstripNL (s : String) : String :=
  ⟨(s.data.reverse.dropWhile (· = '\n')).reverse⟩

-- ── Entry builder (`build_entry` and helpers, lines 691-796) ─────────────────

/-- Model of `_build_stream_url(platform, video_id)` (lines 691-694). -/
def build_stream_url (cfg : Config) (platform video_id : String) : String :=
  if platform = "youtube" then "https://www.youtube.com/watch?v=" ++ video_id
  else "https://www.twitch.tv/" ++ cfg.twitch_user ++ "/video/" ++ video_id

/-- Uppercase hex digit. -/
def hexDigit (n : Nat) : Char :=
  if n < 10 then Char.ofNat (48 + n) else Char.ofNat (55 + n)

/-- Unreserved characters of `urllib.parse.quote` (kept verbatim; with
`safe=''` everything else is percent-encoded). -/
def isUnreserved (c : Char) : Bool :=
  c.isAlpha ∨ isDig c ∨ c = '_' ∨ c = '.' ∨ c = '-' ∨ c = '~'

/-- UTF-8 bytes of one character. -/
def utf8Bytes (c : Char) : List Nat :=
  let n := c.toNat
  if n < 0x80 then [n]
  else if n < 0x800 then [0xC0 + n / 0x40, 0x80 + n % 0x40]
  else if n < 0x10000 then
    [0xE0 + n / 0x1000, 0x80 + (n / 0x40) % 0x40, 0x80 + n % 0x40]
  else
    [0xF0 + n / 0x40000, 0x80 + (n / 0x1000) % 0x40, 0x80 + (n / 0x40) % 0x40,
     0x80 + n % 0x40]

/-- Model of `urllib.parse.quote(filename, safe='')` (line 698). -/
def percentEncode (s : String) : String :=
  ⟨s.data.foldr
    (fun c acc =>
      if isUnreserved c then c :: acc
      else (utf8Bytes c).foldr
        (fun b acc2 => '%' :: hexDigit (b / 16) :: hexDigit (b % 16) :: acc2) acc)
    []⟩

/-- Model of `_build_shell_cmd(filename)` (lines 697-700). -/
def build_shell_cmd (cfg : Config) (filename : String) : String :=
  "obsidian://shell-commands/?vault=" ++ cfg.obsidian_vault ++
    "&execute=" ++ cfg.shellcmd_id ++ "&_arg0=raws/" ++ percentEncode filename

/-- Characters of `os.path.splitext(...)` root: everything before the
extension (the extension starts at the last dot unless the dots are all
leading). -/
def splitextRootChars (l : List Char) : List Char :=
  match ((List.range l.length).filter (fun i => l.get? i = some '.')).getLast? with
  | none => l
  | some p => if (l.take p).all (· = '.') then l else l.take p

/-- Model of `re.sub(r'^\d+_', '', name)` (line 706). -/
def stripIndexTag (l : List Char) : List Char :=
  if l.takeWhile isDig = [] then l
  else
    match l.dropWhile isDig with
    | '_' :: rest => rest
    | _ => l

/-- Full-suffix matcher for
`\s*\[[^\]]+\]\s*@\s*\d{4}-\d{2}-\d{2}_\d{2}-\d{2}$` (line 707); every
greedy run is followed by a character outside its class, so the match is
deterministic. -/
def matchArchiveTagTail (l : List Char) : Bool :=
  match l.dropWhile isPySpace with
  | '[' :: rest =>
      if rest.takeWhile (· ≠ ']') = [] then false
      else
        match rest.dropWhile (· ≠ ']') with
        | ']' :: r2 =>
            match r2.dropWhile isPySpace with
            | '@' :: r4 =>
                (do
                  let r5 := r4.dropWhile isPySpace
                  let (_, a) ← grabDigits 4 r5 0
                  let b ← expectChar '-' a
                  let (_, c) ← grabDigits 2 b 0
                  let d ← expectChar '-' c
                  let (_, e) ← grabDigits 2 d 0
                  let f ← expectChar '_' e
                  let (_, g) ← grabDigits 2 f 0
                  let h ← expectChar '-' g
                  let (_, i) ← grabDigits 2 h 0
                  pure i) = some []
            | _ => false
        | _ => false
  | _ => false

/-- Leftmost end-anchored deletion for the archive-tag pattern. -/
def stripArchiveTag : List Char → List Char
  | [] => []
  | c :: rest => if matchArchiveTagTail (c :: rest) then [] else c :: stripArchiveTag rest

/-- Model of `_title_from_filename(filename)` (lines 703-708): drop the
extension, the leading `{index}_` tag and the trailing
`[id] @ date_time` tag. -/
def title_from_filename (filename : String) : String :=
  ⟨stripArchiveTag (stripIndexTag (splitextRootChars filename.data))⟩

/-- Result of the single-item metadata collaborator (yt-dlp `--dump-json`
on one URL, lines 718-724): `none` models a failed or unparsable call. -/
structure TitleMeta where
  title : Option String := none
  description : Option String := none
  upload_date : String := ""
  deriving DecidableEq, Repr

/-- Model of `_upsert_cache(cache, entry)` (lines 368-375): dedup the
platform's list by id, insert/replace the entry, re-sort, save.  (The
`save_cache` call is threaded by the callers that persist.) -/
def upsert_cache (cache : Cache) (entry : Rec) : Cache :=
  cacheSet cache entry.platform
    (pySortDesc startKey (insertByKey entry (pyDedupById (cacheGet cache entry.platform))))

/-- Model of `_get_title(video_id, platform, cache, nas_file)`
(lines 711-735): registry title first, then a title derived from the
storage filename, then an on-demand metadata fetch whose truthy title is
opportunistically upserted into the cache.  The metadata service is the
oracle `fetch (platform) (video_id)`. -/
def get_title (_cfg : Config) (fetch : String → String → Option TitleMeta)
    (video_id platform : String) (cache : Cache) (nas_file : Option String) :
    Option String × Cache :=
  match (cacheGet cache platform).find? (fun s => s.id = video_id) with
  | some s => (some s.title, cache)
  | none =>
      if pyStrTruthy nas_file then (some (title_from_filename (nas_file.getD "")), cache)
      else
        match fetch platform video_id with
        | some data =>
            let t := if pyStrTruthy data.title then data.title else data.description
            if pyStrTruthy t then
              (t, upsert_cache cache
                { id := video_id, platform := platform, title := t.getD ""
                  start_time := data.upload_date, injected := false })
            else (none, cache)
        | none => (none, cache)

/-- Model of `_build_platform_line(tag, video_id, platform, title,
video_file, chat_file)` (lines 737-746). -/
def build_platform_line (cfg : Config) (tag : String) (video_id : Option String)
    (platform : String) (title : Option String)
    (video_file chat_file : Option String) : String :=
  let vid_link :=
    if pyStrTruthy video_file then "[📁](" ++ build_shell_cmd cfg (video_file.getD "") ++ ")"
    else "[📁]()"
  let chat_link :=
    if pyStrTruthy chat_file then "[📄](" ++ build_shell_cmd cfg (chat_file.getD "") ++ ")"
    else "[📄]()"
  let display := if pyStrTruthy title then title.getD "" else "untitled"
  let url := if pyStrTruthy video_id then build_stream_url cfg platform (video_id.getD "") else ""
  "\t`" ++ tag ++ "` " ++ vid_link ++ " " ++ chat_link ++ " [ " ++ display ++ " ](" ++ url ++ ")"

/-- The duration-resolution loop body (lines 758-764): the first record of
the platform with the resolved id and a truthy duration. -/
def durFirst (cache : Cache) (vid : Option String) (platform : String) : Option Nat :=
  if pyStrTruthy vid then
    match (cacheGet cache platform).find? (fun s => s.id = vid.getD "" ∧ pyNatTruthy s.duration) with
    | some s => s.duration
    | none => none
  else none

/-- Render `divmod`-style `[HH:MM:SS]` (lines 767-770). -/
def fmtHMS (dur : Nat) : String :=
  pad2 ((dur / 3600 : Nat) : Int) ++ ":" ++ pad2 (((dur % 3600) / 60 : Nat) : Int) ++
    ":" ++ pad2 ((dur % 60 : Nat) : Int)

/-- The header assembly of `build_entry` (lines 753-776): preserved
checkbox, date and timezone, with the duration resolved as the larger of
the two platforms' registry durations, else the previously recorded one,
else omitted. -/
def headerOf (index : Nat) (entry : ParsedEntry) (cache : Cache)
    (yt_id tw_id : Option String) : String :=
  let durations := [durFirst cache yt_id "youtube", durFirst cache tw_id "twitch"].filterMap id
  let dur_str :=
    if durations ≠ [] then " [" ++ fmtHMS (durations.foldl max 0) ++ "]"
    else if pyStrTruthy entry.duration_str then " [" ++ entry.duration_str.getD "" ++ "]"
    else ""
  let date_str := if pyStrTruthy entry.date_str then entry.date_str.getD "" else "UNKNOWN"
  let tz_str := if pyStrTruthy entry.tz_str then entry.tz_str.getD "" else "(GMT-6)"
  "- " ++ entry.checkbox ++ " **" ++ toString index ++ "** : " ++ date_str ++ " " ++
    tz_str ++ dur_str ++ "  #stream"

/-- The YouTube paragraph of `build_entry` (lines 779-783): absence marker
line, or title resolution plus platform line. -/
def ytStepOf (cfg : Config) (fetch : String → String → Option TitleMeta)
    (entry : ParsedEntry) (nas : Nas) (cache : Cache) (yt_id : Option String) :
    String × Cache :=
  if entry.no_yt then ("\t`YT` ✗", cache)
  else
    let p :=
      if pyStrTruthy yt_id then get_title cfg fetch (yt_id.getD "") "youtube" cache nas.yt_video
      else (none, cache)
    (build_platform_line cfg "YT" yt_id "youtube" p.1 nas.yt_video nas.yt_chat, p.2)

/-- The Twitch paragraph of `build_entry` (lines 786-790). -/
def twStepOf (cfg : Config) (fetch : String → String → Option TitleMeta)
    (entry : ParsedEntry) (nas : Nas) (cache : Cache) (tw_id : Option String) :
    String × Cache :=
  if entry.no_tw then ("\t`TW` ✗", cache)
  else
    let p :=
      if pyStrTruthy tw_id then get_title cfg fetch (tw_id.getD "") "twitch" cache nas.tw_video
      else (none, cache)
    (build_platform_line cfg "TW" tw_id "twitch" p.1 nas.tw_video nas.tw_chat, p.2)

/-- Model of `build_entry(index, entry, nas, cache, yt_id, tw_id)`
(lines 749-796): assemble the full entry block and thread the cache (which
`_get_title` may mutate by opportunistic upsert) through the YouTube then
the Twitch paragraph. -/
def build_entry (cfg : Config) (fetch : String → String → Option TitleMeta)
    (index : Nat) (entry : ParsedEntry) (nas : Nas) (cache : Cache)
    (yt_id tw_id : Option String) : List String × Cache :=
  let header := headerOf index entry cache yt_id tw_id
  let ytStep := ytStepOf cfg fetch entry nas cache yt_id
  let twStep := twStepOf cfg fetch entry nas ytStep.2 tw_id
  ([header, ytStep.1, twStep.1] ++ entry.notes.map rstripNL, twStep.2)

-- ── List lemmas for the dict/sort model ──────────────────────────────────────

/-- Membership after a stable descending insertion. -/
theorem mem_insortDesc {k : Rec → String} {x a : Rec} :
    ∀ {l : List Rec}, x ∈ insortDesc k a l ↔ x = a ∨ x ∈ l := by
  intro l
  induction l with
  | nil => simp [insortDesc]
  | cons y ys ih =>
      unfold insortDesc
      by_cases h : k y < k a
      · rw [if_pos h]
        simp [List.mem_cons]
      · rw [if_neg h]
        simp only [List.mem_cons, ih]
        tauto

/-- Membership after the folded insertion of `pySortDesc`. -/
theorem mem_pySortDesc_aux {k : Rec → String} {x : Rec} :
    ∀ (l acc : List Rec), x ∈ l.foldl (fun a y => insortDesc k y a) acc ↔ x ∈ acc ∨ x ∈ l := by
  intro l
  induction l with
  | nil => simp
  | cons y ys ih =>
      intro acc
      rw [List.foldl_cons, ih, mem_insortDesc]
      simp [List.mem_cons]
      tauto

/-- `pySortDesc` preserves membership. -/
theorem mem_pySortDesc {k : Rec → String} {x : Rec} {l : List Rec} :
    x ∈ pySortDesc k l ↔ x ∈ l := by
  unfold pySortDesc
  rw [mem_pySortDesc_aux]
  simp

/-- Every member of an `insertByKey` result is the new value or an old
member. -/
theorem mem_of_mem_insertByKey {v x : Rec} :
    ∀ {l : List Rec}, x ∈ insertByKey v l → x = v ∨ x ∈ l := by
  intro l
  induction l with
  | nil => simp [insertByKey]
  | cons y ys ih =>
      unfold insertByKey
      by_cases h : y.id = v.id
      · rw [if_pos h]
        simp only [List.mem_cons]
        tauto
      · rw [if_neg h]
        simp only [List.mem_cons]
        intro hx
        rcases hx with hx | hx
        · exact Or.inr (Or.inl hx)
        · rcases ih hx with hx | hx
          · exact Or.inl hx
          · exact Or.inr (Or.inr hx)

/-- The inserted value is always a member of an `insertByKey` result. -/
theorem self_mem_insertByKey {v : Rec} :
    ∀ {l : List Rec}, v ∈ insertByKey v l := by
  intro l
  induction l with
  | nil => simp [insertByKey]
  | cons y ys ih =>
      unfold insertByKey
      by_cases h : y.id = v.id
      · rw [if_pos h]; exact List.mem_cons_self _ _
      · rw [if_neg h]; exact List.mem_cons_of_mem _ ih

/-- Every member of a `pyDedupById` result is a member of the input. -/
theorem mem_of_mem_pyDedupById_aux {x : Rec} :
    ∀ (l acc : List Rec), x ∈ l.foldl (fun d s => insertByKey s d) acc → x ∈ acc ∨ x ∈ l := by
  intro l
  induction l with
  | nil => simp
  | cons y ys ih =>
      intro acc hx
      rw [List.foldl_cons] at hx
      rcases ih (insertByKey y acc) hx with hx | hx
      · rcases mem_of_mem_insertByKey hx with hx | hx
        · exact Or.inr (by simp [hx])
        · exact Or.inl hx
      · exact Or.inr (List.mem_cons_of_mem _ hx)

/-- Every member of a `pyDedupById` result is a member of the input. -/
theorem mem_of_mem_pyDedupById {x : Rec} {l : List Rec} :
    x ∈ pyDedupById l → x ∈ l := by
  intro hx
  rcases mem_of_mem_pyDedupById_aux l [] hx with h | h
  · exact absurd h (List.not_mem_nil x)
  · exact h

/-- A `find?` over a list with a unique satisfying member returns it. -/
theorem find?_unique {p : Rec → Bool} {a : Rec} :
    ∀ {l : List Rec}, p a = true → a ∈ l → (∀ x ∈ l, p x = true → x = a) →
      l.find? p = some a := by
  intro l
  induction l with
  | nil => intro _ h; exact absurd h (List.not_mem_nil a)
  | cons y ys ih =>
      intro hpa hmem huniq
      by_cases hy : p y = true
      · rw [List.find?_cons_of_pos _ hy]
        rw [huniq y (List.mem_cons_self _ _) hy]
      · rw [List.find?_cons_of_neg _ (by simp [hy])]
        have : a ∈ ys := by
          rcases List.mem_cons.mp hmem with h | h
          · subst h; exact absurd hpa hy
          · exact h
        exact ih hpa this (fun x hx => huniq x (List.mem_cons_of_mem _ hx))

-- ── Cache/upsert lemmas ──────────────────────────────────────────────────────

/-- Reading back the platform just written. -/
theorem cacheGet_cacheSet_self (c : Cache) (l : List Rec) (p : String)
    (hp : p = "youtube" ∨ p = "twitch") : cacheGet (cacheSet c p l) p = l := by
  rcases hp with h | h <;> subst h <;> rfl

/-- The platform list produced by an upsert. -/
theorem cacheGet_upsert_self (c : Cache) (r : Rec)
    (hp : r.platform = "youtube" ∨ r.platform = "twitch") :
    cacheGet (upsert_cache c r) r.platform =
      pySortDesc startKey (insertByKey r (pyDedupById (cacheGet c r.platform))) := by
  unfold upsert_cache
  exact cacheGet_cacheSet_self _ _ _ hp

/-- A YouTube upsert leaves the Twitch partition untouched. -/
theorem upsert_yt_twitch (c : Cache) (r : Rec) (h : r.platform = "youtube") :
    (upsert_cache c r).twitch = c.twitch := by
  unfold upsert_cache
  rw [h]
  rfl

/-- A Twitch upsert leaves the YouTube partition untouched. -/
theorem upsert_tw_youtube (c : Cache) (r : Rec) (h : r.platform = "twitch") :
    (upsert_cache c r).youtube = c.youtube := by
  unfold upsert_cache
  rw [h]
  rfl

/-- After upserting a record whose id was absent, an id lookup finds
exactly the upserted record. -/
theorem upsert_find_self (c : Cache) (r : Rec) (v : String)
    (hp : r.platform = "youtube" ∨ r.platform = "twitch") (hid : r.id = v)
    (hmiss : (cacheGet c r.platform).find? (fun s => s.id = v) = none) :
    (cacheGet (upsert_cache c r) r.platform).find? (fun s => s.id = v) = some r := by
  rw [cacheGet_upsert_self c r hp]
  apply find?_unique
  · simp [hid]
  · exact mem_pySortDesc.mpr self_mem_insertByKey
  · intro x hx hpx
    rcases mem_of_mem_insertByKey (mem_pySortDesc.mp hx) with h | h
    · exact h
    · exfalso
      have hnot := List.find?_eq_none.mp hmiss x (mem_of_mem_pyDedupById h)
      simp only [decide_eq_true_eq] at hpx hnot
      exact hnot hpx

/-- After upserting a duration-less record whose id was absent, a
duration-bearing lookup for that id still fails, on both the old and the
new platform list. -/
theorem upsert_find_dur_none (c : Cache) (r : Rec) (v : String)
    (hp : r.platform = "youtube" ∨ r.platform = "twitch") (hid : r.id = v)
    (hdur : r.duration = none)
    (hmiss : (cacheGet c r.platform).find? (fun s => s.id = v) = none) :
    (cacheGet (upsert_cache c r) r.platform).find?
        (fun s => s.id = v ∧ pyNatTruthy s.duration) = none ∧
    (cacheGet c r.platform).find? (fun s => s.id = v ∧ pyNatTruthy s.duration) = none := by
  constructor
  · rw [cacheGet_upsert_self c r hp, List.find?_eq_none]
    intro x hx
    rcases mem_of_mem_insertByKey (mem_pySortDesc.mp hx) with h | h
    · subst h
      simp [hdur, pyNatTruthy]
    · have hnot := List.find?_eq_none.mp hmiss x (mem_of_mem_pyDedupById h)
      simp only [decide_eq_true_eq] at hnot ⊢
      intro hand
      exact hnot hand.1
  · rw [List.find?_eq_none]
    intro x hx
    have hnot := List.find?_eq_none.mp hmiss x hx
    simp only [decide_eq_true_eq] at hnot ⊢
    intro hand
    exact hnot hand.1

-- ── `_get_title` branch lemmas ───────────────────────────────────────────────

/-- Branch: registry hit. -/
theorem get_title_hit (cfg : Config) (fetch : String → String → Option TitleMeta)
    (v p : String) (c : Cache) (nasf : Option String) (s : Rec)
    (h : (cacheGet c p).find? (fun x => x.id = v) = some s) :
    get_title cfg fetch v p c nasf = (some s.title, c) := by
  unfold get_title
  rw [h]

/-- Branch: registry miss, storage filename present. -/
theorem get_title_nas (cfg : Config) (fetch : String → String → Option TitleMeta)
    (v p : String) (c : Cache) (nasf : Option String)
    (h : (cacheGet c p).find? (fun x => x.id = v) = none)
    (hnas : pyStrTruthy nasf = true) :
    get_title cfg fetch v p c nasf = (some (title_from_filename (nasf.getD "")), c) := by
  unfold get_title
  rw [h]
  simp [hnas]

/-- Branch: registry miss, no storage filename, fetch failed. -/
theorem get_title_fetch_none (cfg : Config) (fetch : String → String → Option TitleMeta)
    (v p : String) (c : Cache) (nasf : Option String)
    (h : (cacheGet c p).find? (fun x => x.id = v) = none)
    (hnas : pyStrTruthy nasf = false) (hf : fetch p v = none) :
    get_title cfg fetch v p c nasf = (none, c) := by
  unfold get_title
  rw [h]
  simp [hnas, hf]

/-- Branch: registry miss, no storage filename, fetch delivered no truthy
title. -/
theorem get_title_fetch_falsy (cfg : Config) (fetch : String → String → Option TitleMeta)
    (v p : String) (c : Cache) (nasf : Option String) (data : TitleMeta)
    (h : (cacheGet c p).find? (fun x => x.id = v) = none)
    (hnas : pyStrTruthy nasf = false) (hf : fetch p v = some data)
    (ht : pyStrTruthy (if pyStrTruthy data.title then data.title else data.description) = false) :
    get_title cfg fetch v p c nasf = (none, c) := by
  unfold get_title
  rw [h]
  simp [hnas, hf, ht]

/-- Branch: registry miss, no storage filename, fetch delivered a truthy
title, which is upserted. -/
theorem get_title_fetch_truthy (cfg : Config) (fetch : String → String → Option TitleMeta)
    (v p : String) (c : Cache) (nasf : Option String) (data : TitleMeta)
    (h : (cacheGet c p).find? (fun x => x.id = v) = none)
    (hnas : pyStrTruthy nasf = false) (hf : fetch p v = some data)
    (ht : pyStrTruthy (if pyStrTruthy data.title then data.title else data.description) = true) :
    get_title cfg fetch v p c nasf =
      ((if pyStrTruthy data.title then data.title else data.description),
       upsert_cache c
         { id := v, platform := p
           title := (if pyStrTruthy data.title then data.title else data.description).getD ""
           start_time := data.upload_date, injected := false }) := by
  unfold get_title
  rw [h]
  simp [hnas, hf, ht]

/-- Reading the YouTube partition. -/
theorem cacheGet_youtube (c : Cache) : cacheGet c "youtube" = c.youtube := rfl

/-- Reading the Twitch partition. -/
theorem cacheGet_twitch (c : Cache) : cacheGet c "twitch" = c.twitch := rfl

/-- The title delivered by `_get_title` depends only on the platform's
list (plus the storage filename and the metadata oracle). -/
theorem get_title_fst_congr (cfg : Config) (fetch : String → String → Option TitleMeta)
    (v p : String) (c c' : Cache) (nasf : Option String)
    (h : cacheGet c p = cacheGet c' p) :
    (get_title cfg fetch v p c nasf).1 = (get_title cfg fetch v p c' nasf).1 := by
  cases hfind : (cacheGet c p).find? (fun x => x.id = v) with
  | some s =>
      rw [get_title_hit cfg fetch v p c nasf s hfind,
        get_title_hit cfg fetch v p c' nasf s (h ▸ hfind)]
  | none =>
      have hfind' : (cacheGet c' p).find? (fun x => x.id = v) = none := h ▸ hfind
      by_cases hnas : pyStrTruthy nasf = true
      · rw [get_title_nas cfg fetch v p c nasf hfind hnas,
          get_title_nas cfg fetch v p c' nasf hfind' hnas]
      · have hnas' : pyStrTruthy nasf = false := by simpa using hnas
        cases hf : fetch p v with
        | none =>
            rw [get_title_fetch_none cfg fetch v p c nasf hfind hnas' hf,
              get_title_fetch_none cfg fetch v p c' nasf hfind' hnas' hf]
        | some data =>
            by_cases ht : pyStrTruthy (if pyStrTruthy data.title then data.title else data.description) = true
            · rw [get_title_fetch_truthy cfg fetch v p c nasf data hfind hnas' hf ht,
                get_title_fetch_truthy cfg fetch v p c' nasf data hfind' hnas' hf ht]
            · have ht' : pyStrTruthy (if pyStrTruthy data.title then data.title else data.description) = false := by
                simpa using ht
              rw [get_title_fetch_falsy cfg fetch v p c nasf data hfind hnas' hf ht',
                get_title_fetch_falsy cfg fetch v p c' nasf data hfind' hnas' hf ht']

/-- Re-running `_get_title` on the cache it returned yields the same
title: the opportunistic upsert turns the fetch path into a registry hit
with the very title that was fetched. -/
theorem get_title_fst_stable (cfg : Config) (fetch : String → String → Option TitleMeta)
    (v p : String) (c : Cache) (nasf : Option String)
    (hp : p = "youtube" ∨ p = "twitch") :
    (get_title cfg fetch v p ((get_title cfg fetch v p c nasf).2) nasf).1 =
      (get_title cfg fetch v p c nasf).1 := by
  cases hfind : (cacheGet c p).find? (fun x => x.id = v) with
  | some s =>
      rw [get_title_hit cfg fetch v p c nasf s hfind]
      rw [get_title_hit cfg fetch v p c nasf s hfind]
  | none =>
      by_cases hnas : pyStrTruthy nasf = true
      · rw [get_title_nas cfg fetch v p c nasf hfind hnas]
        rw [get_title_nas cfg fetch v p c nasf hfind hnas]
      · have hnas' : pyStrTruthy nasf = false := by simpa using hnas
        cases hf : fetch p v with
        | none =>
            rw [get_title_fetch_none cfg fetch v p c nasf hfind hnas' hf]
            rw [get_title_fetch_none cfg fetch v p c nasf hfind hnas' hf]
        | some data =>
            by_cases ht : pyStrTruthy (if pyStrTruthy data.title then data.title else data.description) = true
            · rw [get_title_fetch_truthy cfg fetch v p c nasf data hfind hnas' hf ht]
              have hfind2 :
                  (cacheGet (upsert_cache c
                    { id := v, platform := p
                      title := (if pyStrTruthy data.title then data.title else data.description).getD ""
                      start_time := data.upload_date, injected := false }) p).find?
                      (fun x => x.id = v) =
                    some { id := v, platform := p
                           title := (if pyStrTruthy data.title then data.title else data.description).getD ""
                           start_time := data.upload_date, injected := false } :=
                upsert_find_self c _ v hp rfl hfind
              rw [get_title_hit cfg fetch v p _ nasf _ hfind2]
              cases hd : (if pyStrTruthy data.title then data.title else data.description) with
              | none => rw [hd] at ht; exact absurd ht (by simp [pyStrTruthy])
              | some tt => simp
            · have ht' : pyStrTruthy (if pyStrTruthy data.title then data.title else data.description) = false := by
                simpa using ht
              rw [get_title_fetch_falsy cfg fetch v p c nasf data hfind hnas' hf ht']
              rw [get_title_fetch_falsy cfg fetch v p c nasf data hfind hnas' hf ht']

/-- The cache returned by `_get_title` resolves the same first truthy
duration for the looked-up id as the input cache (the upserted backfill
record carries no duration). -/
theorem get_title_preserves_durFirst (cfg : Config) (fetch : String → String → Option TitleMeta)
    (v p : String) (c : Cache) (nasf : Option String)
    (hp : p = "youtube" ∨ p = "twitch") :
    durFirst ((get_title cfg fetch v p c nasf).2) (some v) p = durFirst c (some v) p := by
  cases hfind : (cacheGet c p).find? (fun x => x.id = v) with
  | some s => rw [get_title_hit cfg fetch v p c nasf s hfind]
  | none =>
      by_cases hnas : pyStrTruthy nasf = true
      · rw [get_title_nas cfg fetch v p c nasf hfind hnas]
      · have hnas' : pyStrTruthy nasf = false := by simpa using hnas
        cases hf : fetch p v with
        | none => rw [get_title_fetch_none cfg fetch v p c nasf hfind hnas' hf]
        | some data =>
            by_cases ht : pyStrTruthy (if pyStrTruthy data.title then data.title else data.description) = true
            · rw [get_title_fetch_truthy cfg fetch v p c nasf data hfind hnas' hf ht]
              by_cases hv : v = ""
              · subst hv
                simp [durFirst, pyStrTruthy]
              · have hvt : pyStrTruthy (some v) = true := by simp [pyStrTruthy, hv]
                have key : ∀ cc : Cache, durFirst cc (some v) p =
                    match (cacheGet cc p).find? (fun s => s.id = v ∧ pyNatTruthy s.duration) with
                    | some s => s.duration
                    | none => none := by
                  intro cc
                  unfold durFirst
                  simp only [Option.getD_some]
                  rw [if_pos hvt]
                obtain ⟨hnew, hold⟩ :=
                  upsert_find_dur_none c
                    { id := v, platform := p
                      title := (if pyStrTruthy data.title then data.title else data.description).getD ""
                      start_time := data.upload_date, injected := false } v hp rfl rfl hfind
                rw [key, key, hnew, hold]
            · have ht' : pyStrTruthy (if pyStrTruthy data.title then data.title else data.description) = false := by
                simpa using ht
              rw [get_title_fetch_falsy cfg fetch v p c nasf data hfind hnas' hf ht']

/-- A YouTube `_get_title` never touches the Twitch partition. -/
theorem get_title_snd_twitch (cfg : Config) (fetch : String → String → Option TitleMeta)
    (v : String) (c : Cache) (nasf : Option String) :
    ((get_title cfg fetch v "youtube" c nasf).2).twitch = c.twitch := by
  cases hfind : (cacheGet c "youtube").find? (fun x => x.id = v) with
  | some s => rw [get_title_hit cfg fetch v "youtube" c nasf s hfind]
  | none =>
      by_cases hnas : pyStrTruthy nasf = true
      · rw [get_title_nas cfg fetch v "youtube" c nasf hfind hnas]
      · have hnas' : pyStrTruthy nasf = false := by simpa using hnas
        cases hf : fetch "youtube" v with
        | none => rw [get_title_fetch_none cfg fetch v "youtube" c nasf hfind hnas' hf]
        | some data =>
            by_cases ht : pyStrTruthy (if pyStrTruthy data.title then data.title else data.description) = true
            · rw [get_title_fetch_truthy cfg fetch v "youtube" c nasf data hfind hnas' hf ht]
              exact upsert_yt_twitch c _ rfl
            · have ht' : pyStrTruthy (if pyStrTruthy data.title then data.title else data.description) = false := by
                simpa using ht
              rw [get_title_fetch_falsy cfg fetch v "youtube" c nasf data hfind hnas' hf ht']

/-- A Twitch `_get_title` never touches the YouTube partition. -/
theorem get_title_snd_youtube (cfg : Config) (fetch : String → String → Option TitleMeta)
    (v : String) (c : Cache) (nasf : Option String) :
    ((get_title cfg fetch v "twitch" c nasf).2).youtube = c.youtube := by
  cases hfind : (cacheGet c "twitch").find? (fun x => x.id = v) with
  | some s => rw [get_title_hit cfg fetch v "twitch" c nasf s hfind]
  | none =>
      by_cases hnas : pyStrTruthy nasf = true
      · rw [get_title_nas cfg fetch v "twitch" c nasf hfind hnas]
      · have hnas' : pyStrTruthy nasf = false := by simpa using hnas
        cases hf : fetch "twitch" v with
        | none => rw [get_title_fetch_none cfg fetch v "twitch" c nasf hfind hnas' hf]
        | some data =>
            by_cases ht : pyStrTruthy (if pyStrTruthy data.title then data.title else data.description) = true
            · rw [get_title_fetch_truthy cfg fetch v "twitch" c nasf data hfind hnas' hf ht]
              exact upsert_tw_youtube c _ rfl
            · have ht' : pyStrTruthy (if pyStrTruthy data.title then data.title else data.description) = false := by
                simpa using ht
              rw [get_title_fetch_falsy cfg fetch v "twitch" c nasf data hfind hnas' hf ht']

-- ── Step-level stability lemmas for `build_entry` ────────────────────────────

/-- `durFirst` depends only on the platform's list. -/
theorem durFirst_congr (c c' : Cache) (vid : Option String) (p : String)
    (h : cacheGet c p = cacheGet c' p) : durFirst c vid p = durFirst c' vid p := by
  unfold durFirst
  rw [h]

/-- The YouTube paragraph leaves the Twitch partition untouched. -/
theorem ytStepOf_snd_twitch (cfg : Config) (fetch : String → String → Option TitleMeta)
    (e : ParsedEntry) (nas : Nas) (c : Cache) (yt : Option String) :
    ((ytStepOf cfg fetch e nas c yt).2).twitch = c.twitch := by
  unfold ytStepOf
  by_cases hno : e.no_yt = true
  · rw [if_pos hno]
  · rw [if_neg hno]
    by_cases hyt : pyStrTruthy yt = true
    · simp only [hyt, if_true]
      exact get_title_snd_twitch cfg fetch _ c nas.yt_video
    · simp [hyt]

/-- The Twitch paragraph leaves the YouTube partition untouched. -/
theorem twStepOf_snd_youtube (cfg : Config) (fetch : String → String → Option TitleMeta)
    (e : ParsedEntry) (nas : Nas) (c : Cache) (tw : Option String) :
    ((twStepOf cfg fetch e nas c tw).2).youtube = c.youtube := by
  unfold twStepOf
  by_cases hno : e.no_tw = true
  · rw [if_pos hno]
  · rw [if_neg hno]
    by_cases htw : pyStrTruthy tw = true
    · simp only [htw, if_true]
      exact get_title_snd_youtube cfg fetch _ c nas.tw_video
    · simp [htw]

/-- The YouTube paragraph's line depends only on the YouTube partition. -/
theorem ytStepOf_fst_congr (cfg : Config) (fetch : String → String → Option TitleMeta)
    (e : ParsedEntry) (nas : Nas) (c c' : Cache) (yt : Option String)
    (h : c.youtube = c'.youtube) :
    (ytStepOf cfg fetch e nas c yt).1 = (ytStepOf cfg fetch e nas c' yt).1 := by
  unfold ytStepOf
  by_cases hno : e.no_yt = true
  · rw [if_pos hno, if_pos hno]
  · rw [if_neg hno, if_neg hno]
    by_cases hyt : pyStrTruthy yt = true
    · simp only [hyt, if_true]
      rw [get_title_fst_congr cfg fetch _ "youtube" c c' nas.yt_video
        (by rw [cacheGet_youtube, cacheGet_youtube, h])]
    · simp [hyt]

/-- The Twitch paragraph's line depends only on the Twitch partition. -/
theorem twStepOf_fst_congr (cfg : Config) (fetch : String → String → Option TitleMeta)
    (e : ParsedEntry) (nas : Nas) (c c' : Cache) (tw : Option String)
    (h : c.twitch = c'.twitch) :
    (twStepOf cfg fetch e nas c tw).1 = (twStepOf cfg fetch e nas c' tw).1 := by
  unfold twStepOf
  by_cases hno : e.no_tw = true
  · rw [if_pos hno, if_pos hno]
  · rw [if_neg hno, if_neg hno]
    by_cases htw : pyStrTruthy tw = true
    · simp only [htw, if_true]
      rw [get_title_fst_congr cfg fetch _ "twitch" c c' nas.tw_video
        (by rw [cacheGet_twitch, cacheGet_twitch, h])]
    · simp [htw]

/-- Re-running the YouTube paragraph on its own output cache yields the
same line. -/
theorem ytStepOf_fst_stable (cfg : Config) (fetch : String → String → Option TitleMeta)
    (e : ParsedEntry) (nas : Nas) (c : Cache) (yt : Option String) :
    (ytStepOf cfg fetch e nas ((ytStepOf cfg fetch e nas c yt).2) yt).1 =
      (ytStepOf cfg fetch e nas c yt).1 := by
  unfold ytStepOf
  by_cases hno : e.no_yt = true
  · rw [if_pos hno, if_pos hno]
  · rw [if_neg hno, if_neg hno]
    by_cases hyt : pyStrTruthy yt = true
    · simp only [hyt, if_true]
      rw [get_title_fst_stable cfg fetch _ "youtube" c nas.yt_video (Or.inl rfl)]
    · simp [hyt]

/-- Re-running the Twitch paragraph on its own output cache yields the
same line. -/
theorem twStepOf_fst_stable (cfg : Config) (fetch : String → String → Option TitleMeta)
    (e : ParsedEntry) (nas : Nas) (c : Cache) (tw : Option String) :
    (twStepOf cfg fetch e nas ((twStepOf cfg fetch e nas c tw).2) tw).1 =
      (twStepOf cfg fetch e nas c tw).1 := by
  unfold twStepOf
  by_cases hno : e.no_tw = true
  · rw [if_pos hno, if_pos hno]
  · rw [if_neg hno, if_neg hno]
    by_cases htw : pyStrTruthy tw = true
    · simp only [htw, if_true]
      rw [get_title_fst_stable cfg fetch _ "twitch" c nas.tw_video (Or.inr rfl)]
    · simp [htw]

/-- The YouTube paragraph's cache output resolves the same YouTube
duration for the resolved id. -/
theorem ytStepOf_preserves_durFirst (cfg : Config) (fetch : String → String → Option TitleMeta)
    (e : ParsedEntry) (nas : Nas) (c : Cache) (yt : Option String) :
    durFirst ((ytStepOf cfg fetch e nas c yt).2) yt "youtube" = durFirst c yt "youtube" := by
  unfold ytStepOf
  by_cases hno : e.no_yt = true
  · rw [if_pos hno]
  · rw [if_neg hno]
    by_cases hyt : pyStrTruthy yt = true
    · simp only [hyt, if_true]
      cases yt with
      | none => exact absurd hyt (by simp [pyStrTruthy])
      | some s =>
          have := get_title_preserves_durFirst cfg fetch s "youtube" c nas.yt_video (Or.inl rfl)
          simpa using this
    · simp [hyt]

/-- The Twitch paragraph's cache output resolves the same Twitch duration
for the resolved id. -/
theorem twStepOf_preserves_durFirst (cfg : Config) (fetch : String → String → Option TitleMeta)
    (e : ParsedEntry) (nas : Nas) (c : Cache) (tw : Option String) :
    durFirst ((twStepOf cfg fetch e nas c tw).2) tw "twitch" = durFirst c tw "twitch" := by
  unfold twStepOf
  by_cases hno : e.no_tw = true
  · rw [if_pos hno]
  · rw [if_neg hno]
    by_cases htw : pyStrTruthy tw = true
    · simp only [htw, if_true]
      cases tw with
      | none => exact absurd htw (by simp [pyStrTruthy])
      | some s =>
          have := get_title_preserves_durFirst cfg fetch s "twitch" c nas.tw_video (Or.inr rfl)
          simpa using this
    · simp [htw]

/-- The header depends on the cache only through the two duration
lookups. -/
theorem headerOf_congr (index : Nat) (e : ParsedEntry) (c c' : Cache)
    (yt tw : Option String)
    (hdy : durFirst c yt "youtube" = durFirst c' yt "youtube")
    (hdt : durFirst c tw "twitch" = durFirst c' tw "twitch") :
    headerOf index e c yt tw = headerOf index e c' yt tw := by
  unfold headerOf
  rw [hdy, hdt]

/-- C2: the entry builder is pure and idempotent.  For every
(index, entry, storage finding, resolved ids) input, two invocations of
`build_entry` produce byte-identical block text; the embedding threads the
ambient registry state (which the first invocation may mutate through
`_get_title`'s opportunistic title backfill) into the second invocation,
so the statement covers the real two-invocation scenario rather than a
vacuous replay. -/
theorem build_entry_idempotent (cfg : Config) (fetch : String → String → Option TitleMeta)
    (i : Nat) (e : ParsedEntry) (nas : Nas) (c : Cache) (yt tw : Option String) :
    (build_entry cfg fetch i e nas (build_entry cfg fetch i e nas c yt tw).2 yt tw).1 =
      (build_entry cfg fetch i e nas c yt tw).1 := by
  have h21yt : ((twStepOf cfg fetch e nas (ytStepOf cfg fetch e nas c yt).2 tw).2).youtube =
      ((ytStepOf cfg fetch e nas c yt).2).youtube :=
    twStepOf_snd_youtube cfg fetch e nas _ tw
  have h10tw : ((ytStepOf cfg fetch e nas c yt).2).twitch = c.twitch :=
    ytStepOf_snd_twitch cfg fetch e nas c yt
  have hdy : durFirst (twStepOf cfg fetch e nas (ytStepOf cfg fetch e nas c yt).2 tw).2 yt "youtube" =
      durFirst c yt "youtube" := by
    calc durFirst (twStepOf cfg fetch e nas (ytStepOf cfg fetch e nas c yt).2 tw).2 yt "youtube"
        = durFirst (ytStepOf cfg fetch e nas c yt).2 yt "youtube" :=
          durFirst_congr _ _ _ _ (by rw [cacheGet_youtube, cacheGet_youtube, h21yt])
      _ = durFirst c yt "youtube" := ytStepOf_preserves_durFirst cfg fetch e nas c yt
  have hdt : durFirst (twStepOf cfg fetch e nas (ytStepOf cfg fetch e nas c yt).2 tw).2 tw "twitch" =
      durFirst c tw "twitch" := by
    calc durFirst (twStepOf cfg fetch e nas (ytStepOf cfg fetch e nas c yt).2 tw).2 tw "twitch"
        = durFirst (ytStepOf cfg fetch e nas c yt).2 tw "twitch" :=
          twStepOf_preserves_durFirst cfg fetch e nas _ tw
      _ = durFirst c tw "twitch" :=
          durFirst_congr _ _ _ _ (by rw [cacheGet_twitch, cacheGet_twitch, h10tw])
  have hyl : (ytStepOf cfg fetch e nas (twStepOf cfg fetch e nas (ytStepOf cfg fetch e nas c yt).2 tw).2 yt).1 =
      (ytStepOf cfg fetch e nas c yt).1 := by
    calc (ytStepOf cfg fetch e nas (twStepOf cfg fetch e nas (ytStepOf cfg fetch e nas c yt).2 tw).2 yt).1
        = (ytStepOf cfg fetch e nas (ytStepOf cfg fetch e nas c yt).2 yt).1 :=
          ytStepOf_fst_congr cfg fetch e nas _ _ yt h21yt
      _ = (ytStepOf cfg fetch e nas c yt).1 := ytStepOf_fst_stable cfg fetch e nas c yt
  have hc2yt_tw : ((ytStepOf cfg fetch e nas (twStepOf cfg fetch e nas (ytStepOf cfg fetch e nas c yt).2 tw).2 yt).2).twitch =
      ((twStepOf cfg fetch e nas (ytStepOf cfg fetch e nas c yt).2 tw).2).twitch :=
    ytStepOf_snd_twitch cfg fetch e nas _ yt
  have htwl : (twStepOf cfg fetch e nas (ytStepOf cfg fetch e nas (twStepOf cfg fetch e nas (ytStepOf cfg fetch e nas c yt).2 tw).2 yt).2 tw).1 =
      (twStepOf cfg fetch e nas (ytStepOf cfg fetch e nas c yt).2 tw).1 := by
    calc (twStepOf cfg fetch e nas (ytStepOf cfg fetch e nas (twStepOf cfg fetch e nas (ytStepOf cfg fetch e nas c yt).2 tw).2 yt).2 tw).1
        = (twStepOf cfg fetch e nas (twStepOf cfg fetch e nas (ytStepOf cfg fetch e nas c yt).2 tw).2 tw).1 :=
          twStepOf_fst_congr cfg fetch e nas _ _ tw hc2yt_tw
      _ = (twStepOf cfg fetch e nas (ytStepOf cfg fetch e nas c yt).2 tw).1 :=
          twStepOf_fst_stable cfg fetch e nas _ tw
  show ([headerOf i e (twStepOf cfg fetch e nas (ytStepOf cfg fetch e nas c yt).2 tw).2 yt tw,
          (ytStepOf cfg fetch e nas (twStepOf cfg fetch e nas (ytStepOf cfg fetch e nas c yt).2 tw).2 yt).1,
          (twStepOf cfg fetch e nas (ytStepOf cfg fetch e nas (twStepOf cfg fetch e nas (ytStepOf cfg fetch e nas c yt).2 tw).2 yt).2 tw).1] ++
        e.notes.map rstripNL) =
      ([headerOf i e c yt tw,
          (ytStepOf cfg fetch e nas c yt).1,
          (twStepOf cfg fetch e nas (ytStepOf cfg fetch e nas c yt).2 tw).1] ++
        e.notes.map rstripNL)
  rw [headerOf_congr i e _ c yt tw hdy hdt, hyl, htwl]

-- ── `_newest_date` (lines 67-77) and `resolve_id` (lines 605-651) ────────────

/-- Model of the Python slice `s[:n]`. -/
def strTake (s : String) (n : Nat) : String := ⟨s.data.take n⟩

/-- Model of the reformatting `f"{ud[:4]}-{ud[4:6]}-{ud[6:8]}"`
(line 76). -/
def uploadDateToDay (ud : String) : String :=
  ⟨ud.data.take 4⟩ ++ "-" ++ ⟨(ud.data.drop 4).take 2⟩ ++ "-" ++ ⟨(ud.data.drop 6).take 2⟩

/-- Model of `_newest_date(streams)` (lines 67-77): the lexicographic
maximum over every record's `start_time` day and reformatted
`upload_date`, or `none` when there are no dates. -/
def newest_date (streams : List Rec) : Option String :=
  let dates := streams.foldr
    (fun s acc =>
      (if strTake s.start_time 10 ≠ "" then [strTake s.start_time 10] else []) ++
      (if s.upload_date ≠ "" then [uploadDateToDay s.upload_date] else []) ++ acc) []
  match dates with
  | [] => none
  | d :: rest => some (rest.foldl (fun a b => if a < b then b else a) d)

/-- Model of `entry["date_obj"].strftime("%Y-%m-%d")` (line 631). -/
def epochToDateStr (t : Int) : String := ⟨(epochToIso t).data.take 10⟩

/-- Model of `resolve_id(platform, entry, nas, cache, cli_override)`
(lines 605-651).  The auto-refresh of step 4 runs the platform's refresh
with the given oracle inputs; the result triple is
(resolved (id, source-label), in-memory cache, cache file). -/
def resolve_id (cfg : Config) (platform : String) (entry : ParsedEntry) (nas : Nas)
    (cache : Cache) (disk : Disk)
    (ytFetch : Option (List (Option YtItem)))
    (twToken : Option String) (twPages : List (Option TwPage))
    (cli_override : Option String) :
    Option (String × String) × Cache × Disk :=
  let tag := if platform = "youtube" then "yt" else "tw"
  if pyStrTruthy cli_override then (some (cli_override.getD "", "cli override"), cache, disk)
  else
    let entry_id := if tag = "yt" then entry.yt_id else entry.tw_id
    if pyStrTruthy entry_id then (some (entry_id.getD "", "entry url"), cache, disk)
    else
      let nas_file := if tag = "yt" then nas.yt_video else nas.tw_video
      match (if pyStrTruthy nas_file then extract_video_id_from_filename (nas_file.getD "") else none) with
      | some vid => (some (vid, "nas filename"), cache, disk)
      | none =>
          match entry.date_obj with
          | none => (none, cache, disk)
          | some d =>
              let newest := newest_date (cacheGet cache platform)
              let target := epochToDateStr d
              let refreshed :=
                match newest with
                | none =>
                    if platform = "youtube" then refresh_youtube cfg cache disk ytFetch true
                    else refresh_twitch cfg cache disk twToken twPages true
                | some nd =>
                    if nd < target then
                      (if platform = "youtube" then refresh_youtube cfg cache disk ytFetch false
                       else refresh_twitch cfg cache disk twToken twPages false)
                    else (false, cache, disk)
              match find_in_cache refreshed.2.1 platform d with
              | some (m, fz) =>
                  (some (m.id,
                     match fz with
                     | some f => "cache " ++ f
                     | none => "cache"), refreshed.2.1, refreshed.2.2)
              | none => (none, refreshed.2.1, refreshed.2.2)

/-- C3: `resolve_id` follows the fixed priority chain, short-circuiting at
the first tier that has data: explicit caller override, then an id in the
entry's platform URL, then an id extracted from the storage video
filename, then a registry date match on the (possibly auto-refreshed)
cache.  Each of the first three tiers determines the result for every
value of all lower-tier inputs, so a higher tier with data makes the lower
tiers irrelevant. -/
theorem resolve_id_priority (cfg : Config) (platform : String) (entry : ParsedEntry)
    (nas : Nas) (cache : Cache) (disk : Disk)
    (ytFetch : Option (List (Option YtItem)))
    (twToken : Option String) (twPages : List (Option TwPage)) (ov : Option String) :
    (pyStrTruthy ov = true →
      resolve_id cfg platform entry nas cache disk ytFetch twToken twPages ov =
        (some (ov.getD "", "cli override"), cache, disk)) ∧
    (pyStrTruthy ov = false →
      pyStrTruthy (if platform = "youtube" then entry.yt_id else entry.tw_id) = true →
      resolve_id cfg platform entry nas cache disk ytFetch twToken twPages ov =
        (some ((if platform = "youtube" then entry.yt_id else entry.tw_id).getD "", "entry url"),
         cache, disk)) ∧
    (pyStrTruthy ov = false →
      pyStrTruthy (if platform = "youtube" then entry.yt_id else entry.tw_id) = false →
      ∀ v, (if pyStrTruthy (if platform = "youtube" then nas.yt_video else nas.tw_video) then
              extract_video_id_from_filename
                ((if platform = "youtube" then nas.yt_video else nas.tw_video).getD "")
            else none) = some v →
      resolve_id cfg platform entry nas cache disk ytFetch twToken twPages ov =
        (some (v, "nas filename"), cache, disk)) ∧
    (pyStrTruthy ov = false →
      pyStrTruthy (if platform = "youtube" then entry.yt_id else entry.tw_id) = false →
      (if pyStrTruthy (if platform = "youtube" then nas.yt_video else nas.tw_video) then
         extract_video_id_from_filename
           ((if platform = "youtube" then nas.yt_video else nas.tw_video).getD "")
       else none) = none →
      (entry.date_obj = none →
        resolve_id cfg platform entry nas cache disk ytFetch twToken twPages ov =
          (none, cache, disk)) ∧
      (∀ d, entry.date_obj = some d →
        ((find_in_cache (resolve_id cfg platform entry nas cache disk ytFetch twToken twPages ov).2.1
            platform d = none ∧
          (resolve_id cfg platform entry nas cache disk ytFetch twToken twPages ov).1 = none) ∨
         (∃ m fz,
            find_in_cache (resolve_id cfg platform entry nas cache disk ytFetch twToken twPages ov).2.1
              platform d = some (m, fz) ∧
            (resolve_id cfg platform entry nas cache disk ytFetch twToken twPages ov).1 =
              some (m.id, match fz with | some f => "cache " ++ f | none => "cache"))))) := by
  by_cases hp : platform = "youtube"
  all_goals {
    refine ⟨?_, ?_, ?_, ?_⟩
    · intro hov
      unfold resolve_id
      simp [hov]
    · intro hov hid
      unfold resolve_id
      simp only [hp, if_true, if_false, reduceIte] at hid ⊢
      simp [hov, hid]
    · intro hov hid v hnas
      unfold resolve_id
      simp only [hp, if_true, if_false, reduceIte] at hid hnas ⊢
      simp [hov, hid, hnas]
    · intro hov hid hnas
      constructor
      · intro hdate
        unfold resolve_id
        simp only [hp, if_true, if_false, reduceIte] at hid hnas ⊢
        simp [hov, hid, hnas, hdate]
      · intro d hdate
        unfold resolve_id
        simp only [hp, if_true, if_false, reduceIte] at hid hnas ⊢
        simp only [hov, Bool.false_eq_true, if_false, hid, hnas, hdate, reduceCtorEq,
          String.reduceEq, reduceIte]
        split
        next m fz heq => exact Or.inr ⟨m, fz, heq, rfl⟩
        next heq => exact Or.inl ⟨heq, rfl⟩
  }

/-- Witness for C3: with every lower tier populated (an entry URL id, an
extractable storage filename, a parsable entry date), an explicit override
still decides the result, leaving cache and cache file untouched. -/
theorem resolve_id_priority_witness :
    resolve_id (Config.mk "@h" "tw" "v" "c") "youtube"
      (ParsedEntry.mk true "[ ]" none (some 0) none none (some "dQw4w9WgXcQ") none false false [])
      (Nas.mk (some "515_t [abcdefghijk] @ 2026-02-08_04-15.mp4") none none none)
      (Cache.mk [] []) none none none [] (some "OVERID00000") =
      (some ("OVERID00000", "cli override"), Cache.mk [] [], none) :=
  (resolve_id_priority (Config.mk "@h" "tw" "v" "c") "youtube"
      (ParsedEntry.mk true "[ ]" none (some 0) none none (some "dQw4w9WgXcQ") none false false [])
      (Nas.mk (some "515_t [abcdefghijk] @ 2026-02-08_04-15.mp4") none none none)
      (Cache.mk [] []) none none none [] (some "OVERID00000")).1 (by decide)

-- ── Audit flow slice (`audit`, lines 922-936) ────────────────────────────────

/-- The id-resolution step of `audit` (lines 923-926): each platform's
resolution is skipped entirely — `(None, None)` — when the entry carries
that platform's absence marker; otherwise `resolve_id` runs (the Twitch
resolution sees the cache/file state left by the YouTube one, as the
Python code mutates them in place). -/
def audit_resolutions (cfg : Config) (entry : ParsedEntry) (nas : Nas)
    (cache : Cache) (disk : Disk)
    (ytFetch : Option (List (Option YtItem)))
    (twToken : Option String) (twPages : List (Option TwPage))
    (yt_override tw_override : Option String) :
    (Option (String × String)) × (Option (String × String)) × Cache × Disk :=
  let ytR :=
    if entry.no_yt then ((none : Option (String × String)), cache, disk)
    else resolve_id cfg "youtube" entry nas cache disk ytFetch twToken twPages yt_override
  let twR :=
    if entry.no_tw then ((none : Option (String × String)), ytR.2.1, ytR.2.2)
    else resolve_id cfg "twitch" entry nas ytR.2.1 ytR.2.2 ytFetch twToken twPages tw_override
  (ytR.1, twR.1, twR.2)

/-- The build step of `audit` (line 936) on the resolved ids. -/
def audit_block (cfg : Config) (fetch : String → String → Option TitleMeta)
    (index : Nat) (entry : ParsedEntry) (nas : Nas) (cache : Cache) (disk : Disk)
    (ytFetch : Option (List (Option YtItem)))
    (twToken : Option String) (twPages : List (Option TwPage))
    (yt_override tw_override : Option String) : List String :=
  let r := audit_resolutions cfg entry nas cache disk ytFetch twToken twPages yt_override tw_override
  (build_entry cfg fetch index entry nas r.2.2.1 (r.1.map Prod.fst) (r.2.1.map Prod.fst)).1

/-- C10: a platform absence marker bypasses the entire resolution chain.
For an entry with `no_yt` (resp. `no_tw`), the audit flow resolves that
platform's id to `none` and the built block carries the absence line, for
EVERY value of the per-platform CLI override — the nominally
highest-priority tier is never consulted for a platform marked absent. -/
theorem absence_marker_bypasses_override (cfg : Config)
    (fetch : String → String → Option TitleMeta) (index : Nat)
    (entry : ParsedEntry) (nas : Nas) (cache : Cache) (disk : Disk)
    (ytFetch : Option (List (Option YtItem)))
    (twToken : Option String) (twPages : List (Option TwPage))
    (yt_override tw_override : Option String) :
    (entry.no_yt = true →
      (audit_resolutions cfg entry nas cache disk ytFetch twToken twPages
          yt_override tw_override).1 = none ∧
      (audit_block cfg fetch index entry nas cache disk ytFetch twToken twPages
          yt_override tw_override).get? 1 = some "\t`YT` ✗") ∧
    (entry.no_tw = true →
      (audit_resolutions cfg entry nas cache disk ytFetch twToken twPages
          yt_override tw_override).2.1 = none ∧
      (audit_block cfg fetch index entry nas cache disk ytFetch twToken twPages
          yt_override tw_override).get? 2 = some "\t`TW` ✗") := by
  constructor
  · intro hno
    constructor
    · unfold audit_resolutions
      simp [hno]
    · unfold audit_block audit_resolutions build_entry ytStepOf
      simp [hno]
  · intro hno
    constructor
    · unfold audit_resolutions
      simp [hno]
    · unfold audit_block audit_resolutions build_entry twStepOf
      simp [hno]

/-- Witness for C10: an entry marked absent on both platforms, audited
with explicit overrides for both platforms, still resolves both ids to
`none` and emits both absence lines. -/
theorem absence_marker_bypasses_override_witness :
    ((audit_resolutions (Config.mk "@h" "tw" "v" "c")
        (ParsedEntry.mk true "[ ]" none (some 0) none none none none true true [])
        (Nas.mk none none none none) (Cache.mk [] []) none none none []
        (some "YTOVERRIDE0") (some "123456")).1 = none ∧
      (audit_block (Config.mk "@h" "tw" "v" "c") (fun _ _ => none) 515
        (ParsedEntry.mk true "[ ]" none (some 0) none none none none true true [])
        (Nas.mk none none none none) (Cache.mk [] []) none none none []
        (some "YTOVERRIDE0") (some "123456")).get? 1 = some "\t`YT` ✗") ∧
    ((audit_resolutions (Config.mk "@h" "tw" "v" "c")
        (ParsedEntry.mk true "[ ]" none (some 0) none none none none true true [])
        (Nas.mk none none none none) (Cache.mk [] []) none none none []
        (some "YTOVERRIDE0") (some "123456")).2.1 = none ∧
      (audit_block (Config.mk "@h" "tw" "v" "c") (fun _ _ => none) 515
        (ParsedEntry.mk true "[ ]" none (some 0) none none none none true true [])
        (Nas.mk none none none none) (Cache.mk [] []) none none none []
        (some "YTOVERRIDE0") (some "123456")).get? 2 = some "\t`TW` ✗") :=
  ⟨(absence_marker_bypasses_override (Config.mk "@h" "tw" "v" "c") (fun _ _ => none) 515
      (ParsedEntry.mk true "[ ]" none (some 0) none none none none true true [])
      (Nas.mk none none none none) (Cache.mk [] []) none none none []
      (some "YTOVERRIDE0") (some "123456")).1 rfl,
   (absence_marker_bypasses_override (Config.mk "@h" "tw" "v" "c") (fun _ _ => none) 515
      (ParsedEntry.mk true "[ ]" none (some 0) none none none none true true [])
      (Nas.mk none none none none) (Cache.mk [] []) none none none []
      (some "YTOVERRIDE0") (some "123456")).2 rfl⟩

-- ── C5: frame property of `write_entry` ──────────────────────────────────────

/-- Accumulator form: a found index is below start plus length. -/
theorem findIdx?_lt_length_aux {α : Type} {p : α → Bool} :
    ∀ {l : List α} {i j : Nat}, List.findIdx? p l i = some j → j < i + l.length := by
  intro l
  induction l with
  | nil => intro i j h; simp [List.findIdx?] at h
  | cons x xs ih =>
      intro i j h
      rw [List.findIdx?_cons] at h
      by_cases hx : p x = true
      · rw [if_pos hx, Option.some_inj] at h
        subst h
        simp only [List.length_cons]
        omega
      · rw [if_neg hx] at h
        have := ih h
        simp only [List.length_cons] at *
        omega

/-- A found index is within bounds. -/
theorem findIdx?_lt_length {α : Type} {p : α → Bool} {l : List α} {i : Nat}
    (h : l.findIdx? p = some i) : i < l.length := by
  have := findIdx?_lt_length_aux h
  omega

/-- C5: `write_entry` replaces exactly the located line range — every line
of the document before the block start and at or after the block end is
unchanged, and the replacement lines sit in between. -/
theorem write_entry_frame (index : Nat) (doc newLines doc' : List String)
    (h : write_entry index doc newLines = some doc') :
    ∃ s, locateStart index doc = some s ∧
      doc' = doc.take s ++ newLines.map ensureNL ++ doc.drop (locateEnd doc s) ∧
      doc'.take s = doc.take s ∧
      doc'.drop (s + newLines.length) = doc.drop (locateEnd doc s) := by
  unfold write_entry at h
  cases hs : locateStart index doc with
  | none => rw [hs] at h; exact absurd h (by simp)
  | some s =>
      rw [hs] at h
      rw [Option.some_inj] at h
      subst h
      have hlen : s < doc.length := findIdx?_lt_length hs
      have hA : (doc.take s).length = s := by
        rw [List.length_take]
        exact Nat.min_eq_left (Nat.le_of_lt hlen)
      refine ⟨s, rfl, rfl, ?_, ?_⟩
      · rw [List.take_append_of_le_length (by rw [List.length_append, hA]; exact Nat.le_add_right s _)]
        rw [List.take_append_of_le_length (by rw [hA])]
        rw [List.take_take, Nat.min_self]
      · have hAB : (doc.take s ++ newLines.map ensureNL).length = s + newLines.length := by
          rw [List.length_append, hA, List.length_map]
        rw [← hAB, List.drop_left]

/-- Witness for C5: a concrete three-entry document where entry 515 is
replaced; the frame equalities hold with block start 4 and block end 9. -/
theorem write_entry_frame_witness :
    ∃ s, locateStart 515
        ["# Log\n",
         "- [x] **514** : 2026.02.01 03:00 (GMT-6)  #stream\n",
         "\t`YT` x\n",
         "---\n",
         "- [ ] **515** : 2026.02.08 04:15 (GMT-6)  #stream\n",
         "\t`YT` y\n",
         "\tnote\n",
         "---\n",
         "- [ ] **516** : 2026.02.09 04:15 (GMT-6)  #stream\n"] = some s ∧
      (["# Log\n",
        "- [x] **514** : 2026.02.01 03:00 (GMT-6)  #stream\n",
        "\t`YT` x\n",
        "---\n",
        "NEW1\n", "NEW2\n",
        "---\n",
        "- [ ] **516** : 2026.02.09 04:15 (GMT-6)  #stream\n"] : List String) =
        (["# Log\n",
          "- [x] **514** : 2026.02.01 03:00 (GMT-6)  #stream\n",
          "\t`YT` x\n",
          "---\n",
          "- [ ] **515** : 2026.02.08 04:15 (GMT-6)  #stream\n",
          "\t`YT` y\n",
          "\tnote\n",
          "---\n",
          "- [ ] **516** : 2026.02.09 04:15 (GMT-6)  #stream\n"].take s) ++
          (["NEW1", "NEW2\n"].map ensureNL) ++
          (["# Log\n",
            "- [x] **514** : 2026.02.01 03:00 (GMT-6)  #stream\n",
            "\t`YT` x\n",
            "---\n",
            "- [ ] **515** : 2026.02.08 04:15 (GMT-6)  #stream\n",
            "\t`YT` y\n",
            "\tnote\n",
            "---\n",
            "- [ ] **516** : 2026.02.09 04:15 (GMT-6)  #stream\n"].drop
            (locateEnd
              ["# Log\n",
               "- [x] **514** : 2026.02.01 03:00 (GMT-6)  #stream\n",
               "\t`YT` x\n",
               "---\n",
               "- [ ] **515** : 2026.02.08 04:15 (GMT-6)  #stream\n",
               "\t`YT` y\n",
               "\tnote\n",
               "---\n",
               "- [ ] **516** : 2026.02.09 04:15 (GMT-6)  #stream\n"] s)) ∧
      (["# Log\n",
        "- [x] **514** : 2026.02.01 03:00 (GMT-6)  #stream\n",
        "\t`YT` x\n",
        "---\n",
        "NEW1\n", "NEW2\n",
        "---\n",
        "- [ ] **516** : 2026.02.09 04:15 (GMT-6)  #stream\n"] : List String).take s =
        ["# Log\n",
         "- [x] **514** : 2026.02.01 03:00 (GMT-6)  #stream\n",
         "\t`YT` x\n",
         "---\n",
         "- [ ] **515** : 2026.02.08 04:15 (GMT-6)  #stream\n",
         "\t`YT` y\n",
         "\tnote\n",
         "---\n",
         "- [ ] **516** : 2026.02.09 04:15 (GMT-6)  #stream\n"].take s ∧
      (["# Log\n",
        "- [x] **514** : 2026.02.01 03:00 (GMT-6)  #stream\n",
        "\t`YT` x\n",
        "---\n",
        "NEW1\n", "NEW2\n",
        "---\n",
        "- [ ] **516** : 2026.02.09 04:15 (GMT-6)  #stream\n"] : List String).drop
          (s + (["NEW1", "NEW2\n"] : List String).length) =
        ["# Log\n",
         "- [x] **514** : 2026.02.01 03:00 (GMT-6)  #stream\n",
         "\t`YT` x\n",
         "---\n",
         "- [ ] **515** : 2026.02.08 04:15 (GMT-6)  #stream\n",
         "\t`YT` y\n",
         "\tnote\n",
         "---\n",
         "- [ ] **516** : 2026.02.09 04:15 (GMT-6)  #stream\n"].drop
          (locateEnd
            ["# Log\n",
             "- [x] **514** : 2026.02.01 03:00 (GMT-6)  #stream\n",
             "\t`YT` x\n",
             "---\n",
             "- [ ] **515** : 2026.02.08 04:15 (GMT-6)  #stream\n",
             "\t`YT` y\n",
             "\tnote\n",
             "---\n",
             "- [ ] **516** : 2026.02.09 04:15 (GMT-6)  #stream\n"] s) :=
  write_entry_frame 515
    ["# Log\n",
     "- [x] **514** : 2026.02.01 03:00 (GMT-6)  #stream\n",
     "\t`YT` x\n",
     "---\n",
     "- [ ] **515** : 2026.02.08 04:15 (GMT-6)  #stream\n",
     "\t`YT` y\n",
     "\tnote\n",
     "---\n",
     "- [ ] **516** : 2026.02.09 04:15 (GMT-6)  #stream\n"]
    ["NEW1", "NEW2\n"]
    ["# Log\n",
     "- [x] **514** : 2026.02.01 03:00 (GMT-6)  #stream\n",
     "\t`YT` x\n",
     "---\n",
     "NEW1\n", "NEW2\n",
     "---\n",
     "- [ ] **516** : 2026.02.09 04:15 (GMT-6)  #stream\n"]
    (by decide)

-- ── C4 lemmas: parse → build → write round-trip for user notes ───────────────

/-- Platform-line application does not touch the collected notes. -/
theorem applyYtLine_notes (e : ParsedEntry) (line : String) :
    (applyYtLine e line).notes = e.notes := by
  unfold applyYtLine
  by_cases h : hasCross line = true
  · simp [h]
  · simp only [h, Bool.false_eq_true, if_false]
    cases firstPlatformId "youtube" (findUrls line) <;> rfl

/-- Platform-line application does not touch the collected notes. -/
theorem applyTwLine_notes (e : ParsedEntry) (line : String) :
    (applyTwLine e line).notes = e.notes := by
  unfold applyTwLine
  by_cases h : hasCross line = true
  · simp [h]
  · simp only [h, Bool.false_eq_true, if_false]
    cases firstPlatformId "twitch" (findUrls line) <;> rfl

/-- The scan collects, beyond the inherited notes, exactly the in-block
lines that are neither platform lines nor the terminator, in order. -/
theorem scanLines_notes (bs : List String) :
    ∀ (e0 : ParsedEntry) (term : String) (rest : List String),
      (∀ l ∈ bs, isBoundary l = false) → isBoundary term = true →
      (scanLines e0 (bs ++ term :: rest)).notes =
        e0.notes ++ bs.filter (fun l => !(isYtTagLine l) && !(isTwTagLine l)) := by
  induction bs with
  | nil =>
      intro e0 term rest _ hterm
      unfold scanLines
      simp [hterm]
  | cons l ls ih =>
      intro e0 term rest hbs hterm
      have hl : isBoundary l = false := hbs l (List.mem_cons_self _ _)
      have hls : ∀ x ∈ ls, isBoundary x = false :=
        fun x hx => hbs x (List.mem_cons_of_mem _ hx)
      rw [List.cons_append]
      unfold scanLines
      rw [hl]
      simp only [Bool.false_eq_true, if_false]
      by_cases hyt : isYtTagLine l = true
      · rw [if_pos hyt, ih (applyYtLine e0 l) term rest hls hterm, applyYtLine_notes]
        rw [List.filter_cons_of_neg (by simp [hyt])]
      · rw [if_neg hyt]
        by_cases htw : isTwTagLine l = true
        · rw [if_pos htw, ih (applyTwLine e0 l) term rest hls hterm, applyTwLine_notes]
          rw [List.filter_cons_of_neg (by simp [hyt, htw])]
        · rw [if_neg htw, ih _ term rest hls hterm]
          simp only [ParsedEntry.notes]
          rw [List.filter_cons_of_pos (by simp [hyt, htw])]
          rw [List.append_assoc]
          rfl

/-- The header search skips exactly the non-matching preamble. -/
theorem locateHeader_append (index : Nat) (pre : List String) (hdr : String)
    (tail : List String)
    (hpre : ∀ l ∈ pre, isHeaderLine index l = false)
    (hhdr : isHeaderLine index hdr = true) :
    locateHeader index (pre ++ hdr :: tail) = some (hdr, tail) := by
  induction pre with
  | nil =>
      unfold locateHeader
      simp [hhdr]
  | cons x xs ih =>
      rw [List.cons_append]
      unfold locateHeader
      rw [hpre x (List.mem_cons_self _ _)]
      simp only [Bool.false_eq_true, if_false]
      exact ih (fun l hl => hpre l (List.mem_cons_of_mem _ hl))

/-- The index search skips exactly the non-matching preamble
(accumulator form). -/
theorem findIdx?_append_acc {p : String → Bool} (pre : List String) (hdr : String)
    (tail : List String) (hpre : ∀ l ∈ pre, p l = false) (hhdr : p hdr = true) :
    ∀ i, List.findIdx? p (pre ++ hdr :: tail) i = some (i + pre.length) := by
  induction pre with
  | nil =>
      intro i
      rw [List.nil_append, List.findIdx?_cons, if_pos hhdr]
      simp
  | cons x xs ih =>
      intro i
      rw [List.cons_append, List.findIdx?_cons]
      rw [hpre x (List.mem_cons_self _ _)]
      simp only [Bool.false_eq_true, if_false]
      rw [ih (fun l hl => hpre l (List.mem_cons_of_mem _ hl)) (i + 1)]
      simp only [List.length_cons]
      exact congrArg some (by omega)

/-- `locateStart` finds the header right after the preamble. -/
theorem locateStart_append (index : Nat) (pre : List String) (hdr : String)
    (tail : List String)
    (hpre : ∀ l ∈ pre, isHeaderLine index l = false)
    (hhdr : isHeaderLine index hdr = true) :
    locateStart index (pre ++ hdr :: tail) = some pre.length := by
  unfold locateStart
  have := findIdx?_append_acc pre hdr tail hpre hhdr 0
  simpa using this

/-- The end scan runs through a boundary-free block and stops at the
terminator. -/
theorem endScan_append (bs : List String) :
    ∀ (term : String) (rest : List String) (e : Nat),
      (∀ l ∈ bs, isBoundary l = false) → isBoundary term = true →
      endScan (bs ++ term :: rest) e = e + bs.length := by
  induction bs with
  | nil =>
      intro term rest e _ hterm
      unfold endScan
      simp [hterm]
  | cons l ls ih =>
      intro term rest e hbs hterm
      rw [List.cons_append]
      unfold endScan
      rw [hbs l (List.mem_cons_self _ _)]
      simp only [Bool.false_eq_true, if_false]
      rw [ih term rest (e + 1) (fun x hx => hbs x (List.mem_cons_of_mem _ hx)) hterm]
      simp only [List.length_cons]
      omega

/-- Dropping leading newlines from a newline-free list is the identity. -/
theorem dropWhile_nl_eq_self {s : List Char} (hs : ∀ c ∈ s, ¬ c = '\n') :
    s.dropWhile (fun c => c = '\n') = s := by
  cases s with
  | nil => rfl
  | cons c cs =>
      rw [List.dropWhile_cons]
      have := hs c (List.mem_cons_self _ _)
      simp [this]

/-- Mapping a pointwise-identity function is the identity. -/
theorem map_id_of {α : Type} (f : α → α) :
    ∀ (l : List α), (∀ x ∈ l, f x = x) → l.map f = l := by
  intro l
  induction l with
  | nil => intro _; rfl
  | cons x xs ih =>
      intro h
      rw [List.map_cons, h x (List.mem_cons_self _ _),
        ih (fun y hy => h y (List.mem_cons_of_mem _ hy))]

/-- On a well-formed document line — a newline-free body plus one final
newline — the builder's `rstrip('\n')` followed by the writer's
newline normalisation is the identity: the byte-for-byte round-trip. -/
theorem ensureNL_rstripNL (s : String) (hs : '\n' ∉ s.data) :
    ensureNL (rstripNL (s ++ "\n")) = s ++ "\n" := by
  obtain ⟨sd⟩ := s
  have hsd : ∀ c ∈ sd, ¬ c = '\n' := by
    intro c hc he
    subst he
    exact hs hc
  have hstrip : rstripNL (String.mk sd ++ "\n") = String.mk sd := by
    unfold rstripNL
    show String.mk (((sd ++ ['\n']).reverse.dropWhile (fun c => c = '\n')).reverse) = String.mk sd
    rw [List.reverse_append]
    simp only [List.reverse_cons, List.reverse_nil, List.nil_append, List.singleton_append]
    rw [List.dropWhile_cons]
    simp only [decide_True, if_true]
    rw [dropWhile_nl_eq_self (by intro c hc; exact hsd c (List.mem_reverse.mp hc))]
    rw [List.reverse_reverse]
  rw [hstrip]
  unfold ensureNL
  cases hlast : (String.mk sd).data.getLast? with
  | none => simp [hlast]
  | some c =>
      have hcm : c ∈ sd := by
        obtain ⟨hne, hc⟩ :=
          List.mem_getLast?_eq_getLast (l := sd) (x := c)
            (by rw [Option.mem_def]; exact hlast)
        rw [hc]
        exact List.getLast_mem hne
      have : ¬ c = '\n' := hsd c hcm
      simp [hlast, this]

/-- Header-field extraction does not touch the collected notes. -/
theorem parseHeaderFields_notes (header : String) (e : ParsedEntry) :
    (parseHeaderFields header e).notes = e.notes := by
  unfold parseHeaderFields
  cases searchOpt matchCheckboxAt header.data <;>
    cases searchOpt matchDateAt header.data <;>
      cases searchOpt matchTzAt header.data <;>
        cases searchOpt matchDurAt header.data <;> rfl

/-- C4: the full parse → build → write reconciliation round-trip
preserves, byte-for-byte and in original order, every line of the entry
block that is neither the header, a recognized platform line, nor the
block terminator.  The document is `pre ++ hdr :: bs ++ term :: rest` with
the entry's header `hdr`, block body `bs` and terminator `term`; each body
line is a well-formed text line (newline-terminated, no interior
newline).  The parsed notes are exactly the non-platform body lines, and
the rewritten document keeps them verbatim, in order, between the three
rebuilt lines and the untouched terminator. -/
theorem notes_roundtrip (cfg : Config) (fetch : String → String → Option TitleMeta)
    (index : Nat) (pre bs rest : List String) (hdr term : String)
    (nas : Nas) (cache : Cache) (yt tw : Option String)
    (hpre : ∀ l ∈ pre, isHeaderLine index l = false)
    (hhdr : isHeaderLine index hdr = true)
    (hbs : ∀ l ∈ bs, isBoundary l = false)
    (hterm : isBoundary term = true)
    (hwf : ∀ l ∈ bs, ∃ s : String, l = s ++ "\n" ∧ '\n' ∉ s.data) :
    (parse_entry index (pre ++ hdr :: (bs ++ term :: rest))).notes =
      bs.filter (fun l => !(isYtTagLine l) && !(isTwTagLine l)) ∧
    ∃ L1 L2 L3 : String,
      write_entry index (pre ++ hdr :: (bs ++ term :: rest))
        (build_entry cfg fetch index
          (parse_entry index (pre ++ hdr :: (bs ++ term :: rest))) nas cache yt tw).1 =
      some (pre ++ L1 :: L2 :: L3 ::
        (bs.filter (fun l => !(isYtTagLine l) && !(isTwTagLine l)) ++ term :: rest)) := by
  have hparse : parse_entry index (pre ++ hdr :: (bs ++ term :: rest)) =
      scanLines (parseHeaderFields hdr { found := true }) (bs ++ term :: rest) := by
    unfold parse_entry
    rw [locateHeader_append index pre hdr _ hpre hhdr]
  have hnotes : (parse_entry index (pre ++ hdr :: (bs ++ term :: rest))).notes =
      bs.filter (fun l => !(isYtTagLine l) && !(isTwTagLine l)) := by
    rw [hparse, scanLines_notes bs _ term rest hbs hterm, parseHeaderFields_notes]
    rfl
  refine ⟨hnotes, ?_⟩
  refine ⟨ensureNL (headerOf index
      (parse_entry index (pre ++ hdr :: (bs ++ term :: rest))) cache yt tw),
    ensureNL (ytStepOf cfg fetch
      (parse_entry index (pre ++ hdr :: (bs ++ term :: rest))) nas cache yt).1,
    ensureNL (twStepOf cfg fetch
      (parse_entry index (pre ++ hdr :: (bs ++ term :: rest))) nas
      (ytStepOf cfg fetch
        (parse_entry index (pre ++ hdr :: (bs ++ term :: rest))) nas cache yt).2 tw).1, ?_⟩
  unfold write_entry
  rw [locateStart_append index pre hdr _ hpre hhdr]
  dsimp only
  have hend : locateEnd (pre ++ hdr :: (bs ++ term :: rest)) pre.length =
      pre.length + 1 + bs.length := by
    unfold locateEnd
    have hdrop : (pre ++ hdr :: (bs ++ term :: rest)).drop (pre.length + 1) =
        bs ++ term :: rest := by
      rw [show pre ++ hdr :: (bs ++ term :: rest) =
        (pre ++ [hdr]) ++ (bs ++ term :: rest) by simp]
      rw [show pre.length + 1 = (pre ++ [hdr]).length by simp]
      exact List.drop_left _ _
    rw [hdrop, endScan_append bs term rest (pre.length + 1) hbs hterm]
  rw [hend]
  have htake : (pre ++ hdr :: (bs ++ term :: rest)).take pre.length = pre :=
    List.take_left pre _
  have hdrop2 : (pre ++ hdr :: (bs ++ term :: rest)).drop (pre.length + 1 + bs.length) =
      term :: rest := by
    rw [show pre ++ hdr :: (bs ++ term :: rest) =
      (pre ++ hdr :: bs) ++ (term :: rest) by simp]
    rw [show pre.length + 1 + bs.length = (pre ++ hdr :: bs).length by
      simp only [List.length_append, List.length_cons]
      omega]
    exact List.drop_left _ _
  have hmap : ((build_entry cfg fetch index
      (parse_entry index (pre ++ hdr :: (bs ++ term :: rest))) nas cache yt tw).1).map ensureNL =
      ensureNL (headerOf index
          (parse_entry index (pre ++ hdr :: (bs ++ term :: rest))) cache yt tw) ::
      ensureNL (ytStepOf cfg fetch
          (parse_entry index (pre ++ hdr :: (bs ++ term :: rest))) nas cache yt).1 ::
      ensureNL (twStepOf cfg fetch
          (parse_entry index (pre ++ hdr :: (bs ++ term :: rest))) nas
          (ytStepOf cfg fetch
            (parse_entry index (pre ++ hdr :: (bs ++ term :: rest))) nas cache yt).2 tw).1 ::
      bs.filter (fun l => !(isYtTagLine l) && !(isTwTagLine l)) := by
    show ((headerOf _ _ _ _ _ :: (ytStepOf _ _ _ _ _ _).1 :: (twStepOf _ _ _ _ _ _).1 :: []) ++
        ((parse_entry index (pre ++ hdr :: (bs ++ term :: rest))).notes.map rstripNL)).map ensureNL = _
    rw [List.map_append]
    simp only [List.map_cons, List.map_nil, List.map_map, hnotes]
    rw [map_id_of (ensureNL ∘ rstripNL) _ ?_]
    · rfl
    · intro x hx
      obtain ⟨sx, hsx, hnx⟩ := hwf x (List.mem_of_mem_filter hx)
      subst hsx
      exact ensureNL_rstripNL sx hnx
  rw [htake, hdrop2, hmap]
  exact congrArg some (by simp)

/-- Witness for C4: a concrete entry block containing a platform line, a
user note and a blank line; the parse extracts exactly the two
non-platform lines as notes and the rewritten document carries them
verbatim, in order, before the untouched terminator. -/
theorem notes_roundtrip_witness :
    (parse_entry 515 ([] ++ "- [ ] **515** : 2026.02.08 04:15 (GMT-6)  #stream\n" ::
        (["\t`YT` ✗\n", "\tnote one\n", "\n"] ++ "---\n" :: []))).notes =
      List.filter (fun l => !(isYtTagLine l) && !(isTwTagLine l))
        ["\t`YT` ✗\n", "\tnote one\n", "\n"] ∧
    ∃ L1 L2 L3 : String,
      write_entry 515 ([] ++ "- [ ] **515** : 2026.02.08 04:15 (GMT-6)  #stream\n" ::
          (["\t`YT` ✗\n", "\tnote one\n", "\n"] ++ "---\n" :: []))
        (build_entry (Config.mk "@h" "tw" "v" "c") (fun _ _ => none) 515
          (parse_entry 515 ([] ++ "- [ ] **515** : 2026.02.08 04:15 (GMT-6)  #stream\n" ::
            (["\t`YT` ✗\n", "\tnote one\n", "\n"] ++ "---\n" :: [])))
          (Nas.mk none none none none) (Cache.mk [] []) none none).1 =
      some ([] ++ L1 :: L2 :: L3 ::
        (List.filter (fun l => !(isYtTagLine l) && !(isTwTagLine l))
          ["\t`YT` ✗\n", "\tnote one\n", "\n"] ++ "---\n" :: [])) :=
  notes_roundtrip (Config.mk "@h" "tw" "v" "c") (fun _ _ => none) 515 []
    ["\t`YT` ✗\n", "\tnote one\n", "\n"] []
    "- [ ] **515** : 2026.02.08 04:15 (GMT-6)  #stream\n" "---\n"
    (Nas.mk none none none none) (Cache.mk [] []) none none
    (by intro l hl; exact absurd hl (List.not_mem_nil l))
    (by decide) (by decide) (by decide)
    (by
      intro l hl
      simp only [List.mem_cons, List.not_mem_nil, or_false] at hl
      rcases hl with rfl | rfl | rfl
      · exact ⟨"\t`YT` ✗", by decide, by decide⟩
      · exact ⟨"\tnote one", by decide, by decide⟩
      · exact ⟨"", by decide, by decide⟩)
